import Mathlib

/-!
Shallow embedding of the DynamoDB-backed persistence layer of the backend
(files `db/models/dynamodb/user.model.js`, `db/models/dynamodb/product.model.js`,
`db/init.js`, `controllers/auth.controller.js`, `controllers/product.controller.js`,
`utils/validators.js`).

The single DynamoDB table is modelled as a list of items; an item is a pair of
key strings (partition key `pk`, sort key `sk`) together with a list of named
attributes.  JavaScript values appearing in items are modelled by `AttrVal`
(string, number, boolean, null).  External effects (UUID generation, bcrypt
hashing, clock reads) are passed to the operations as explicit parameters, and
each stateful operation returns both its result (an `Except` mirroring thrown
JS errors, identified by their message strings) and the table state after the
operation.  The DynamoDB service semantics (conditional put, transactWrite
all-or-nothing, update-expression application) is modelled from the documented
behaviour of the service, which is an external collaborator of this code.
-/

/-- Dynamic JavaScript-ish attribute value stored in a DynamoDB item:
string, number, boolean or null. -/
inductive AttrVal where
  | s (v : String)
  | n (v : Rat)
  | b (v : Bool)
  | null
deriving DecidableEq, Repr

/-- JavaScript truthiness of an (optional, i.e. possibly `undefined`) value. -/
def truthy : Option AttrVal → Bool
  | some (.s v) => v != ""
  | some (.n v) => v != 0
  | some (.b v) => v
  | some .null => false
  | none => false

/-- JavaScript string coercion of a value, as performed by template literals
such as `CATEGORY#$\x7bproductData.category\x7d`. -/
def attrToStr : AttrVal → String
  | .s v => v
  | .n v => toString v
  | .b true => "true"
  | .b false => "false"
  | .null => "null"

/-- String coercion of a possibly-`undefined` value (JS renders `undefined`
as the string "undefined" inside a template literal). -/
def jsStr : Option AttrVal → String
  | some v => attrToStr v
  | none => "undefined"

/-- Named attributes of an item, in JS-object style (lookup by first match). -/
abbrev Attrs := List (String × AttrVal)

/-- Attribute lookup (JS property read; `none` models `undefined`). -/
def getA (a : Attrs) (k : String) : Option AttrVal :=
  (a.find? (fun p => p.1 == k)).map (fun p => p.2)

/-- Attribute write: replaces any previous binding of the key. -/
def setA (a : Attrs) (k : String) (v : AttrVal) : Attrs :=
  (k, v) :: a.filter (fun p => p.1 != k)

/-- Attribute removal, modelling JS rest-destructuring such as
`const \x7b password, ...rest \x7d = item`. -/
def removeA (a : Attrs) (k : String) : Attrs :=
  a.filter (fun p => p.1 != k)

/-- One DynamoDB item: the composite primary key (`pk`, `sk`) plus its other
attributes.  The JS code stores `pk`/`sk` as ordinary object fields; here they
are carried separately because DynamoDB treats them as the immutable key. -/
structure Item where
  pk : String
  sk : String
  attrs : Attrs
deriving DecidableEq, Repr

/-- The single DynamoDB table, as a finite sequence of items in storage
order.  Uniqueness of keys is maintained by `putItem`. -/
abbrev Table := List Item

/-- Key-equality test of an item against a composite key. -/
def keyIs (it : Item) (pk sk : String) : Bool :=
  it.pk == pk && it.sk == sk

/-- Single-item read by full primary key (`dynamoDb.get`). -/
def getItem (t : Table) (pk sk : String) : Option Item :=
  t.find? (fun it => keyIs it pk sk)

/-- Removal of every item bearing the given key (`Delete` of a key). -/
def eraseItem (t : Table) (pk sk : String) : Table :=
  t.filter (fun it => ! keyIs it pk sk)

/-- Unconditional `Put`: overwrites any item at the same key. -/
def putItem (t : Table) (it : Item) : Table :=
  it :: eraseItem t it.pk it.sk

/-- One member of a `TransactItems` list: a `Put` (with or without an
`attribute_not_exists` condition on the item's key) or a `Delete` by key. -/
inductive TOp where
  | put (it : Item) (condNotExists : Bool)
  | del (pk sk : String)
deriving DecidableEq, Repr

/-- Effect of a single transaction member on the table. -/
def applyTOp (t : Table) : TOp → Table
  | .put it _ => putItem t it
  | .del pk sk => eraseItem t pk sk

/-- Condition check of a transaction member against the pre-state: an
`attribute_not_exists(pk)` condition on a `Put` holds exactly when no item is
stored at that item's key (DynamoDB evaluates the condition against the item
at the same primary key, and every stored item has its key attributes). -/
def condOK (t : Table) : TOp → Bool
  | .put it true => (getItem t it.pk it.sk).isNone
  | .put _ false => true
  | .del _ _ => true

/-- All-or-nothing `transactWrite`: if any member's condition fails against
the pre-state the whole transaction is cancelled and the table is untouched;
otherwise all members apply. -/
def transactWrite (t : Table) (ops : List TOp) : Except String Table :=
  if ops.all (condOK t) then .ok (ops.foldl applyTOp t)
  else .error "TransactionCanceledException"

/-- Duplicate-name check over patch keys. -/
def dupKeys : Attrs → Bool
  | [] => false
  | p :: rest => rest.any (fun q => q.1 == p.1) || dupKeys rest

/-- Whether a patch names a key attribute or repeats a name — either makes
the DynamoDB `UpdateExpression` invalid (key attributes cannot be SET;
overlapping document paths are rejected). -/
def badPatch (patch : Attrs) : Bool :=
  patch.any (fun p => p.1 == "pk" || p.1 == "sk") || dupKeys patch

/-- Sequential application of a SET patch to an attribute list. -/
def applyPatch (a : Attrs) (patch : Attrs) : Attrs :=
  patch.foldl (fun a p => setA a p.1 p.2) a

/-- DynamoDB `update` with a pure `SET` expression and `ReturnValues:
ALL_NEW`: applies the patch to the stored item (creating the item from its
key when absent, as the service does) and returns the new image. -/
def dynamoUpdate (t : Table) (pk sk : String) (patch : Attrs) :
    Except String (Table × Item) :=
  if badPatch patch then .error "ValidationException"
  else
    let base : Attrs := match getItem t pk sk with
      | some it => it.attrs
      | none => []
    let newIt : Item := ⟨pk, sk, applyPatch base patch⟩
    .ok (putItem t newIt, newIt)

theorem find?_filter_imp {α : Type} (l : List α) (p q : α → Bool)
    (h : ∀ x, p x = true → q x = true) :
    (l.filter q).find? p = l.find? p := by
  induction l with
  | nil => rfl
  | cons x xs ih =>
    by_cases hq : q x = true
    · rw [List.filter_cons_of_pos hq]
      by_cases hp : p x = true
      · rw [List.find?_cons_of_pos _ hp, List.find?_cons_of_pos _ hp]
      · rw [List.find?_cons_of_neg _ (by simpa using hp),
          List.find?_cons_of_neg _ (by simpa using hp)]
        exact ih
    · rw [List.filter_cons_of_neg (by simpa using hq)]
      have hp : p x = false := by
        cases hpx : p x
        · rfl
        · exact absurd (h x hpx) hq
      rw [List.find?_cons_of_neg _ (by simp [hp])]
      exact ih

theorem getA_setA_self (a : Attrs) (k : String) (v : AttrVal) :
    getA (setA a k v) k = some v := by
  simp [getA, setA]

theorem getA_setA_ne (a : Attrs) (k k' : String) (v : AttrVal) (h : k' ≠ k) :
    getA (setA a k v) k' = getA a k' := by
  unfold getA setA
  rw [List.find?_cons_of_neg _
    (by simp only [beq_iff_eq]; exact fun he => h he.symm)]
  rw [find?_filter_imp]
  intro x hx
  rw [beq_iff_eq] at hx
  simp only [bne_iff_ne, ne_eq, decide_not, Bool.not_eq_eq_eq_not,
    Bool.not_true, decide_eq_false_iff_not]
  rw [hx]
  exact h

theorem getA_removeA_self (a : Attrs) (k : String) :
    getA (removeA a k) k = none := by
  unfold getA removeA
  rw [Option.map_eq_none']
  rw [List.find?_eq_none]
  intro p hp
  have h1 := List.of_mem_filter hp
  simp only [bne_iff_ne, ne_eq, decide_not] at h1 ⊢
  simpa using h1

theorem getA_removeA_ne (a : Attrs) (k k' : String) (h : k' ≠ k) :
    getA (removeA a k) k' = getA a k' := by
  unfold getA removeA
  rw [find?_filter_imp]
  intro x hx
  rw [beq_iff_eq] at hx
  simp only [bne_iff_ne, ne_eq, decide_not, Bool.not_eq_eq_eq_not,
    Bool.not_true, decide_eq_false_iff_not]
  rw [hx]
  exact h

theorem keyIs_eq_false_of_ne (it : Item) (pk sk : String)
    (h : pk ≠ it.pk ∨ sk ≠ it.sk) : keyIs it pk sk = false := by
  unfold keyIs
  rcases h with h | h
  · have hb : (it.pk == pk) = false := by
      cases hx : it.pk == pk
      · rfl
      · exact absurd (beq_iff_eq.mp hx).symm h
    simp [hb]
  · have hb : (it.sk == sk) = false := by
      cases hx : it.sk == sk
      · rfl
      · exact absurd (beq_iff_eq.mp hx).symm h
    simp [hb]

theorem getItem_putItem_self (t : Table) (it : Item) :
    getItem (putItem t it) it.pk it.sk = some it := by
  simp [getItem, putItem, keyIs]

theorem getItem_putItem_ne (t : Table) (it : Item) (pk sk : String)
    (h : pk ≠ it.pk ∨ sk ≠ it.sk) :
    getItem (putItem t it) pk sk = getItem t pk sk := by
  unfold getItem putItem eraseItem
  rw [List.find?_cons_of_neg _ (by simp [keyIs_eq_false_of_ne it pk sk h])]
  apply find?_filter_imp
  intro x hx
  have hx' : x.pk = pk ∧ x.sk = sk := by
    unfold keyIs at hx
    simp only [Bool.and_eq_true, beq_iff_eq] at hx
    exact hx
  have hf : keyIs x it.pk it.sk = false := by
    apply keyIs_eq_false_of_ne
    rcases h with h | h
    · exact Or.inl (by rw [hx'.1]; exact fun he => h he.symm)
    · exact Or.inr (by rw [hx'.2]; exact fun he => h he.symm)
  simp [hf]

theorem getItem_eraseItem_self (t : Table) (pk sk : String) :
    getItem (eraseItem t pk sk) pk sk = none := by
  unfold getItem eraseItem
  rw [List.find?_eq_none]
  intro it hit
  have h1 := List.of_mem_filter hit
  simpa using h1

theorem getItem_eraseItem_ne (t : Table) (pk sk pk' sk' : String)
    (h : pk' ≠ pk ∨ sk' ≠ sk) :
    getItem (eraseItem t pk sk) pk' sk' = getItem t pk' sk' := by
  unfold getItem eraseItem
  apply find?_filter_imp
  intro x hx
  have hx' : x.pk = pk' ∧ x.sk = sk' := by
    unfold keyIs at hx
    simp only [Bool.and_eq_true, beq_iff_eq] at hx
    exact hx
  have hf : keyIs x pk sk = false := by
    apply keyIs_eq_false_of_ne
    rcases h with h | h
    · exact Or.inl (by rw [hx'.1]; exact fun he => h he.symm)
    · exact Or.inr (by rw [hx'.2]; exact fun he => h he.symm)
  simp [hf]

theorem getA_applyPatch_not_mem (a : Attrs) (patch : Attrs) (k : String)
    (h : ∀ p ∈ patch, p.1 ≠ k) :
    getA (applyPatch a patch) k = getA a k := by
  induction patch generalizing a with
  | nil => rfl
  | cons p rest ih =>
    show getA (applyPatch (setA a p.1 p.2) rest) k = getA a k
    rw [ih _ (fun q hq => h q (List.mem_cons_of_mem _ hq))]
    exact getA_setA_ne _ _ _ _ (h p (List.mem_cons_self _ _)).symm

theorem getA_applyPatch_mem (a : Attrs) (patch : Attrs) (k : String)
    (v : AttrVal) (hmem : (k, v) ∈ patch) (hnodup : dupKeys patch = false) :
    getA (applyPatch a patch) k = some v := by
  induction patch generalizing a with
  | nil => cases hmem
  | cons p rest ih =>
    have hnodup' : (rest.any (fun q => q.1 == p.1) || dupKeys rest) = false := hnodup
    simp only [Bool.or_eq_false_iff, List.any_eq_false] at hnodup'
    obtain ⟨hhead, hrest⟩ := hnodup'
    show getA (applyPatch (setA a p.1 p.2) rest) k = some v
    rcases List.mem_cons.mp hmem with heq | hmem'
    · have hclean : ∀ q ∈ rest, q.1 ≠ k := by
        intro q hq hqk
        have hne := hhead q hq
        rw [hqk, ← heq] at hne
        simp at hne
      rw [getA_applyPatch_not_mem _ _ _ hclean, ← heq]
      exact getA_setA_self _ _ _
    · exact ih _ hmem' hrest

/-!
Embedding of `db/models/dynamodb/user.model.js`.  Effectful collaborators
are explicit parameters: `userId` is the freshly generated UUID, `hash` the
bcrypt hash of the supplied password, `now` the ISO timestamp, `check` the
bcrypt comparison.
-/

/-- Input object accepted by `UserModel.create`; `none` models a field that
the caller did not supply (`undefined`). -/
structure UserData where
  email : String
  password : String
  firstName : Option String
  lastName : Option String
  profileImage : Option String
  role : Option String
deriving Repr

/-- JavaScript `x || null` applied to an optional string field. -/
def orNullS : Option String → AttrVal
  | some s => if s = "" then .null else .s s
  | none => .null

/-- JavaScript `userData.role || "user"`. -/
def roleOrUser : Option String → String
  | some s => if s = "" then "user" else s
  | none => "user"

/-- Primary `USER#id / PROFILE#id` record built by `UserModel.create`. -/
def UserModel.primaryItem (d : UserData) (userId hash now : String) : Item :=
  ⟨"USER#" ++ userId, "PROFILE#" ++ userId,
    [("id", .s userId), ("email", .s d.email), ("password", .s hash),
     ("firstName", orNullS d.firstName), ("lastName", orNullS d.lastName),
     ("profileImage", orNullS d.profileImage),
     ("role", .s (roleOrUser d.role)), ("isActive", .b true),
     ("createdAt", .s now), ("updatedAt", .s now)]⟩

/-- Email index record `EMAIL#email / USER#id` built by `UserModel.create`. -/
def UserModel.emailIndexItem (email userId : String) : Item :=
  ⟨"EMAIL#" ++ email, "USER#" ++ userId, [("id", .s userId)]⟩

/-- The `TransactItems` list issued by `UserModel.create`: both puts carry an
`attribute_not_exists(pk)` condition. -/
def UserModel.createOps (d : UserData) (userId hash now : String) : List TOp :=
  [.put (UserModel.primaryItem d userId hash now) true,
   .put (UserModel.emailIndexItem d.email userId) true]

/-- Embedding of `UserModel.create`: one transactWrite of primary plus email
index; a cancelled transaction is reported as a duplicate-email conflict; on
success the created item is returned with the password removed. -/
def UserModel.create (t : Table) (d : UserData) (userId hash now : String) :
    Except String Item × Table :=
  match transactWrite t (UserModel.createOps d userId hash now) with
  | .ok t' =>
    let it := UserModel.primaryItem d userId hash now
    (.ok ⟨it.pk, it.sk, removeA it.attrs "password"⟩, t')
  | .error _ => (.error "User with this email already exists", t)

/-- Embedding of `UserModel.findById`: key get, password stripped. -/
def UserModel.findById (t : Table) (userId : String) : Option Item :=
  (getItem t ("USER#" ++ userId) ("PROFILE#" ++ userId)).map
    (fun it => ⟨it.pk, it.sk, removeA it.attrs "password"⟩)

/-- Prefix test on strings at the character level, modelling
`begins_with(...)` key conditions and filters. -/
def strHasPre (p s : String) : Bool := p.data.isPrefixOf s.data

/-- Model of the `dynamoDb.get` call inside `UserModel.findByEmail`.  Its
`Key` carries `sk: \x7b begins_with: "USER#" \x7d`: the DocumentClient
marshals that object as a map attribute value, and DynamoDB rejects a
`GetItem` whose key attribute type does not match the table schema (`sk` is
declared as a string in `db/init.js`) with a `ValidationException`, before
reading any item.  The call therefore throws on every input; the parameters
only mirror the arguments of the call. -/
def dynamoGetBeginsWithKey (_t : Table) (_pk _skPre : String) :
    Except String (Option Item) :=
  .error "ValidationException"

/-- Embedding of `UserModel.findByEmail`: the index `get` — which always
throws, see `dynamoGetBeginsWithKey` — followed by the continuation the
source wrote (resolution of the index record through `findById`, null when
the index record is absent), which the thrown error makes unreachable. -/
def UserModel.findByEmail (t : Table) (email : String) :
    Except String (Option Item) :=
  match dynamoGetBeginsWithKey t ("EMAIL#" ++ email) "USER#" with
  | .error e => .error e
  | .ok none => .ok none
  | .ok (some idx) => .ok (UserModel.findById t (jsStr (getA idx.attrs "id")))

/-- Generic patch built by `UserModel.update`: `updatedAt` first, then every
supplied field except `id`, `email` and `password`, then — when a truthy
password is supplied — the re-hashed password. -/
def UserModel.buildPatch (updates : Attrs) (hash : String → String)
    (now : String) : Attrs :=
  let base := ("updatedAt", AttrVal.s now) ::
    updates.filter (fun p => p.1 != "id" && p.1 != "email" && p.1 != "password")
  if truthy (getA updates "password") then
    base ++ [("password", AttrVal.s (hash (jsStr (getA updates "password"))))]
  else base

/-- Embedding of `UserModel.update`: existence check, one DynamoDB update
with the generic patch, password stripped from the returned image. -/
def UserModel.update (t : Table) (userId : String) (updates : Attrs)
    (hash : String → String) (now : String) : Except String Item × Table :=
  match UserModel.findById t userId with
  | none => (.error "User not found", t)
  | some _ =>
    match dynamoUpdate t ("USER#" ++ userId) ("PROFILE#" ++ userId)
        (UserModel.buildPatch updates hash now) with
    | .ok (t', newIt) =>
      (.ok ⟨newIt.pk, newIt.sk, removeA newIt.attrs "password"⟩, t')
    | .error e => (.error e, t)

/-- Model of the `dynamoDb.query` call inside `UserModel.validateCredentials`.
It names `IndexName: "EmailIndex"`, but the table created in `db/init.js`
carries no secondary index at all, so DynamoDB rejects the query with a
`ValidationException` on every input; the parameters only mirror the
arguments of the call. -/
def dynamoQueryEmailIndex (_t : Table) (_pk : String) :
    Except String (List Item) :=
  .error "ValidationException"

/-- Embedding of `UserModel.validateCredentials`: the index query — which
always throws, see `dynamoQueryEmailIndex` — followed by the continuation
the source wrote (resolution of the first hit, bcrypt comparison, password
stripped on success), which the thrown error makes unreachable. -/
def UserModel.validateCredentials (t : Table) (email password : String)
    (check : String → String → Bool) : Except String (Option Item) :=
  match dynamoQueryEmailIndex t ("EMAIL#" ++ email) with
  | .error e => .error e
  | .ok [] => .ok none
  | .ok (idx :: _) =>
    match getItem t ("USER#" ++ jsStr (getA idx.attrs "id"))
        ("PROFILE#" ++ jsStr (getA idx.attrs "id")) with
    | none => .ok none
    | some user =>
      match getA user.attrs "password" with
      | some (AttrVal.s hashed) =>
        if check password hashed then
          .ok (some ⟨user.pk, user.sk, removeA user.attrs "password"⟩)
        else .ok none
      | _ => .ok none

/-!
Embedding of `db/models/dynamodb/product.model.js`.
-/

/-- Input object received by `ProductModel.create` (the body fields the
controller forwards); `AttrVal.null` models an absent (`undefined`) field,
which JS treats the same way in every `x || ...` and truthiness test the
model performs. -/
structure ProductData where
  name : AttrVal
  description : AttrVal
  price : AttrVal
  imageUrl : AttrVal
  category : AttrVal
  stock : AttrVal
deriving Repr

/-- JavaScript `x || null` on a field value. -/
def orNullV (v : AttrVal) : AttrVal :=
  if truthy (some v) then v else .null

/-- Primary `PRODUCT#id / DETAILS#id` record built by `ProductModel.create`. -/
def ProductModel.primaryItem (pd : ProductData) (userId productId now : String) :
    Item :=
  ⟨"PRODUCT#" ++ productId, "DETAILS#" ++ productId,
    [("id", .s productId), ("name", pd.name),
     ("description", orNullV pd.description), ("price", pd.price),
     ("imageUrl", orNullV pd.imageUrl), ("category", orNullV pd.category),
     ("stock", if truthy (some pd.stock) then pd.stock else .n 0),
     ("isActive", .b true), ("userId", .s userId),
     ("createdAt", .s now), ("updatedAt", .s now)]⟩

/-- Owner index record `USER#userId / PRODUCT#productId`. -/
def ProductModel.userIndexItem (userId productId : String) : Item :=
  ⟨"USER#" ++ userId, "PRODUCT#" ++ productId, [("id", .s productId)]⟩

/-- Category index record `CATEGORY#category / PRODUCT#productId`. -/
def ProductModel.categoryIndexItem (category productId : String) : Item :=
  ⟨"CATEGORY#" ++ category, "PRODUCT#" ++ productId, [("id", .s productId)]⟩

/-- The `TransactItems` list issued by `ProductModel.create`: the primary and
owner-index puts carry `attribute_not_exists` conditions; the category-index
put (present only for a truthy category) carries no condition. -/
def ProductModel.createOps (pd : ProductData) (userId productId now : String) :
    List TOp :=
  [.put (ProductModel.primaryItem pd userId productId now) true,
   .put (ProductModel.userIndexItem userId productId) true] ++
  (if truthy (some pd.category) then
    [.put (ProductModel.categoryIndexItem (attrToStr pd.category) productId) false]
  else [])

/-- Embedding of `ProductModel.create`: a single transactWrite of all the
records; a cancelled transaction propagates as the raw transaction error
(the source has no catch here). -/
def ProductModel.create (t : Table) (pd : ProductData)
    (userId productId now : String) : Except String Item × Table :=
  match transactWrite t (ProductModel.createOps pd userId productId now) with
  | .ok t' => (.ok (ProductModel.primaryItem pd userId productId now), t')
  | .error e => (.error e, t)

/-- Embedding of `ProductModel.findById`: plain key get. -/
def ProductModel.findById (t : Table) (productId : String) : Option Item :=
  getItem t ("PRODUCT#" ++ productId) ("DETAILS#" ++ productId)

/-- Embedding of `ProductModel.findByUserId`: query of the owner index
(`pk = USER#userId`, `begins_with(sk, PRODUCT#)`), then resolution of each
index record through `findById`, keeping only records that resolve. -/
def ProductModel.findByUserId (t : Table) (userId : String) : List Item :=
  (t.filter (fun it =>
    it.pk == "USER#" ++ userId && strHasPre "PRODUCT#" it.sk)).filterMap
      (fun it => ProductModel.findById t (jsStr (getA it.attrs "id")))

/-- Embedding of `ProductModel.findByCategory`: query of the category index,
then resolution of each index record through `findById`. -/
def ProductModel.findByCategory (t : Table) (category : String) : List Item :=
  (t.filter (fun it =>
    it.pk == "CATEGORY#" ++ category && strHasPre "PRODUCT#" it.sk)).filterMap
      (fun it => ProductModel.findById t (jsStr (getA it.attrs "id")))

/-- Generic patch built by `ProductModel.update`: `updatedAt` first, then
every supplied field except `id`, `userId`, `pk`, `sk` and `createdAt`. -/
def ProductModel.buildPatch (updates : Attrs) (now : String) : Attrs :=
  ("updatedAt", AttrVal.s now) ::
    updates.filter (fun p =>
      p.1 != "id" && p.1 != "userId" && p.1 != "pk" && p.1 != "sk" &&
        p.1 != "createdAt")

/-- Category-index migration step of `ProductModel.update`, issued before
the primary-record update: when the patch carries a truthy category different
from the stored one, the old index record (when the stored category is
truthy) is deleted and the new one inserted in one transactWrite, or the new
one alone is inserted by a single put. -/
def ProductModel.catStep (t : Table) (product : Item) (productId : String)
    (updates : Attrs) : Table :=
  if truthy (getA updates "category") &&
      (getA updates "category" != getA product.attrs "category") then
    let newItem := ProductModel.categoryIndexItem
      (jsStr (getA updates "category")) productId
    if truthy (getA product.attrs "category") then
      match transactWrite t
        [.del ("CATEGORY#" ++ jsStr (getA product.attrs "category"))
          ("PRODUCT#" ++ productId),
         .put newItem false] with
      | .ok t' => t'
      | .error _ => t
    else putItem t newItem
  else t

/-- Embedding of `ProductModel.update`: existence and ownership checks, then
the category-index step (its own write round-trip), then the primary-record
update as a second, separate write. -/
def ProductModel.update (t : Table) (productId : String) (updates : Attrs)
    (userId : String) (now : String) : Except String Item × Table :=
  match ProductModel.findById t productId with
  | none => (.error "Product not found", t)
  | some product =>
    if getA product.attrs "userId" != some (AttrVal.s userId) then
      (.error "Unauthorized to update this product", t)
    else
      let t1 := ProductModel.catStep t product productId updates
      match dynamoUpdate t1 ("PRODUCT#" ++ productId)
          ("DETAILS#" ++ productId) (ProductModel.buildPatch updates now) with
      | .ok (t2, newIt) => (.ok newIt, t2)
      | .error e => (.error e, t1)

/-- The `TransactItems` list issued by `ProductModel.delete`: primary record,
owner index record, and — when the stored category is truthy — the category
index record. -/
def ProductModel.deleteOps (product : Item) (productId userId : String) :
    List TOp :=
  [.del ("PRODUCT#" ++ productId) ("DETAILS#" ++ productId),
   .del ("USER#" ++ userId) ("PRODUCT#" ++ productId)] ++
  (if truthy (getA product.attrs "category") then
    [.del ("CATEGORY#" ++ jsStr (getA product.attrs "category"))
      ("PRODUCT#" ++ productId)]
  else [])

/-- Embedding of `ProductModel.delete`: not-found check, then ownership
check, both before the single transactWrite that removes every record. -/
def ProductModel.delete (t : Table) (productId userId : String) :
    Except String Bool × Table :=
  match ProductModel.findById t productId with
  | none => (.error "Product not found", t)
  | some product =>
    if getA product.attrs "userId" != some (AttrVal.s userId) then
      (.error "Unauthorized to delete this product", t)
    else
      match transactWrite t (ProductModel.deleteOps product productId userId) with
      | .ok t' => (.ok true, t')
      | .error e => (.error e, t)

/-- Embedding of the dynamodb branch of `deleteProduct` in
`controllers/product.controller.js`: maps the model's thrown messages onto
HTTP statuses (404 not-found, 403 unauthorized, 200 success, 500 other). -/
def deleteProductStatus (t : Table) (productId callerId : String) :
    Nat × Table :=
  match ProductModel.delete t productId callerId with
  | (.ok _, t') => (200, t')
  | (.error e, t') =>
    if e == "Product not found" then (404, t')
    else if e == "Unauthorized to delete this product" then (403, t')
    else (500, t')

/-!
Embedding of `db/init.js`, `utils/validators.js` and the register flow of
`controllers/auth.controller.js`.
-/

/-- Outcome of `initializeDatabase` in `db/init.js`: which adapter family is
bound, or the fatal path (the internal throw is caught by the function's own
catch block, which logs and calls `process.exit(1)`). -/
inductive InitResult where
  | rds
  | dynamo
  | fatalExit (message : String)
deriving DecidableEq, Repr

/-- Embedding of the backend-selection branch of `initializeDatabase`:
`config.database.type` decides the adapter; any other value raises the
invalid-database-type error, which the catch block turns into a fatal
process exit. -/
def initializeDatabase (dbType : String) : InitResult :=
  if dbType = "rds" then .rds
  else if dbType = "dynamodb" then .dynamo
  else .fatalExit "Invalid database type specified in configuration."

/-- Result object of `validatePassword` in `utils/validators.js`. -/
structure PwCheck where
  isValid : Bool
  message : String
deriving DecidableEq, Repr

/-- Embedding of `validatePassword`: at least 8 characters, and at least one
uppercase letter, one lowercase letter and one digit. -/
def validatePassword (password : String) : PwCheck :=
  if password.length < 8 then
    ⟨false, "Password must be at least 8 characters long"⟩
  else if ¬ (password.data.any (fun c => 'A' ≤ c && c ≤ 'Z') &&
      password.data.any (fun c => 'a' ≤ c && c ≤ 'z') &&
      password.data.any (fun c => '0' ≤ c && c ≤ '9')) then
    ⟨false,
      "Password must contain at least one uppercase letter, one lowercase letter, and one number"⟩
  else ⟨true, "Password is valid"⟩

/-- Decision the `register` controller reaches before touching the database
writer: reject with 400 (missing email or password), hand a thrown lookup
error to the error middleware (500), reject with 409 (existing user), or
proceed to `UserModel.create` with this payload. -/
inductive RegisterDecision where
  | badRequest (message : String)
  | serverError (message : String)
  | conflict (message : String)
  | proceedCreate (d : UserData)
deriving Repr

/-- Embedding of the checks of `register` in `controllers/auth.controller.js`
(dynamodb branch): presence of email and password, then the duplicate lookup
through `UserModel.findByEmail` — an error thrown there escapes the
controller's try block to the error middleware.  No other validation stands
before `UserModel.create`; with the faithful `findByEmail` the lookup always
throws, so beyond the 400 check only the `serverError` arm is reachable. -/
def registerCheck (t : Table) (email password : String)
    (firstName lastName : Option String) : RegisterDecision :=
  if email = "" || password = "" then
    .badRequest "Email and password are required"
  else
    match UserModel.findByEmail t email with
    | .error e => .serverError e
    | .ok (some _) => .conflict "User with this email already exists"
    | .ok none => .proceedCreate ⟨email, password, firstName, lastName, none, none⟩

/-- Outcome of the full `register` controller (dynamodb branch). -/
inductive RegisterOutcome where
  | badRequest (message : String)
  | conflict (message : String)
  | created (user : Item) (tokenUserId : String)
  | serverError (message : String)
deriving Repr

/-- Embedding of the full `register` flow (dynamodb branch): the checks of
`registerCheck`, then `UserModel.create`, a 201 with the created user and a
token carrying its id, and any thrown error handed to the error middleware
(500). -/
def register (t : Table) (email password : String)
    (firstName lastName : Option String) (userId hash now : String) :
    RegisterOutcome × Table :=
  match registerCheck t email password firstName lastName with
  | .badRequest m => (.badRequest m, t)
  | .serverError m => (.serverError m, t)
  | .conflict m => (.conflict m, t)
  | .proceedCreate d =>
    match UserModel.create t d userId hash now with
    | (.ok u, t') => (.created u userId, t')
    | (.error e, t') => (.serverError e, t')

/-!
Embedding of the pagination cursor of `ProductModel.list`:
`Buffer.from(JSON.stringify(lastEvaluatedKey)).toString("base64")` on the way
out and `JSON.parse(Buffer.from(cursor, "base64").toString())` on the way in.
Base64 is implemented over byte lists; the JSON codec is implemented for the
exact object shape `\x7b"pk": string, "sk": string\x7d` the code serializes,
with the string escapes (backslash and double quote) that such key strings
can need — control characters, which `JSON.stringify` would escape
differently, are excluded by the printable-ASCII hypothesis of the round-trip
theorems.  UTF-8 encoding is modelled as the identity on code points, valid
on the ASCII domain covered by the same hypothesis.
-/

/-- Standard base64 alphabet. -/
def b64Table : List Char :=
  "ABCDEFGHIJKLMNOPQRSTUVWXYZabcdefghijklmnopqrstuvwxyz0123456789+/".data

/-- Character of a sextet. -/
def b64Char (n : Nat) : Char := b64Table.getD n 'A'

/-- Sextet of a character (none for a character outside the alphabet). -/
def b64CharInv (c : Char) : Option Nat := b64Table.findIdx? (fun d => d == c)

/-- Base64 encoding of a byte list, with `=` padding, three bytes at a
time. -/
def encB64 : List Nat → List Char
  | [] => []
  | [a] => [b64Char (a / 4), b64Char (a % 4 * 16), '=', '=']
  | [a, b] =>
    [b64Char (a / 4), b64Char (a % 4 * 16 + b / 16), b64Char (b % 16 * 4), '=']
  | a :: b :: c :: rest =>
    b64Char (a / 4) :: b64Char (a % 4 * 16 + b / 16) ::
      b64Char (b % 16 * 4 + c / 64) :: b64Char (c % 64) :: encB64 rest

/-- Base64 decoding, the inverse of `encB64` on well-formed input. -/
def decB64 : List Char → Option (List Nat)
  | [] => some []
  | c1 :: c2 :: c3 :: c4 :: rest =>
    match b64CharInv c1, b64CharInv c2 with
    | some s1, some s2 =>
      if c3 = '=' then
        if c4 = '=' ∧ rest = [] then some [s1 * 4 + s2 / 16] else none
      else
        match b64CharInv c3 with
        | some s3 =>
          if c4 = '=' then
            if rest = [] then some [s1 * 4 + s2 / 16, s2 % 16 * 16 + s3 / 4]
            else none
          else
            match b64CharInv c4, decB64 rest with
            | some s4, some tail =>
              some ((s1 * 4 + s2 / 16) :: (s2 % 16 * 16 + s3 / 4) ::
                (s3 % 4 * 64 + s4) :: tail)
            | _, _ => none
        | none => none
    | _, _ => none
  | _ => none

theorem b64CharInv_b64Char : ∀ n < 64, b64CharInv (b64Char n) = some n := by
  decide

theorem b64Char_ne_pad : ∀ n < 64, b64Char n ≠ '=' := by
  decide

theorem decB64_encB64 (l : List Nat) (h : ∀ x ∈ l, x < 256) :
    decB64 (encB64 l) = some l := by
  induction l using encB64.induct with
  | case1 => simp [encB64, decB64]
  | case2 a =>
    have ha : a < 256 := h a (by simp)
    have h1 : a / 4 * 4 + a % 4 * 16 / 16 = a := by omega
    simp [encB64, decB64, b64CharInv_b64Char _ (show a / 4 < 64 by omega),
      b64CharInv_b64Char _ (show a % 4 * 16 < 64 by omega), h1]
    omega
  | case3 a b =>
    have ha : a < 256 := h a (by simp)
    have hb : b < 256 := h b (by simp)
    have h1 : a / 4 * 4 + (a % 4 * 16 + b / 16) / 16 = a := by omega
    have h2 : (a % 4 * 16 + b / 16) % 16 * 16 + b % 16 * 4 / 4 = b := by omega
    simp [encB64, decB64, b64CharInv_b64Char _ (show a / 4 < 64 by omega),
      b64CharInv_b64Char _ (show a % 4 * 16 + b / 16 < 64 by omega),
      b64CharInv_b64Char _ (show b % 16 * 4 < 64 by omega),
      b64Char_ne_pad _ (show b % 16 * 4 < 64 by omega), h1, h2]
    omega
  | case4 a b c rest ih =>
    have ha : a < 256 := h a (by simp)
    have hb : b < 256 := h b (by simp)
    have hc : c < 256 := h c (by simp)
    have hrest : ∀ x ∈ rest, x < 256 := fun x hx => h x (by simp [hx])
    have h1 : a / 4 * 4 + (a % 4 * 16 + b / 16) / 16 = a := by omega
    have h2 : (a % 4 * 16 + b / 16) % 16 * 16 + (b % 16 * 4 + c / 64) / 4 = b := by
      omega
    have h3 : (b % 16 * 4 + c / 64) % 4 * 64 + c % 64 = c := by omega
    simp [encB64, decB64, b64CharInv_b64Char _ (show a / 4 < 64 by omega),
      b64CharInv_b64Char _ (show a % 4 * 16 + b / 16 < 64 by omega),
      b64CharInv_b64Char _ (show b % 16 * 4 + c / 64 < 64 by omega),
      b64CharInv_b64Char _ (show c % 64 < 64 by omega),
      b64Char_ne_pad _ (show b % 16 * 4 + c / 64 < 64 by omega),
      b64Char_ne_pad _ (show c % 64 < 64 by omega),
      ih hrest, h1, h2, h3]

/-- Opening brace character (written via its code point; see the JSON note
above). -/
def lbrace : Char := Char.ofNat 123

/-- Closing brace character. -/
def rbrace : Char := Char.ofNat 125

/-- JSON string escaping for the characters that can occur in printable
ASCII key strings: backslash and double quote. -/
def escChars : List Char → List Char
  | [] => []
  | c :: rest =>
    if c = '"' ∨ c = '\\' then '\\' :: c :: escChars rest
    else c :: escChars rest

/-- The page-boundary marker (`LastEvaluatedKey` object) round-tripped by the
pagination cursor: the composite key of the last evaluated item. -/
structure LastKey where
  pk : String
  sk : String
deriving DecidableEq, Repr

/-- Leading characters of the JSON serialization, through the opening quote
of the `pk` value. -/
def jkPre : List Char := [lbrace, '"', 'p', 'k', '"', ':', '"']

/-- Characters between the two values: closing context of `pk`, name and
opening quote of `sk`. -/
def jkMid : List Char := [',', '"', 's', 'k', '"', ':', '"']

/-- Character-level `JSON.stringify` of a `LastKey`. -/
def jsonKeyChars (k : LastKey) : List Char :=
  jkPre ++ (escChars k.pk.data ++ '"' ::
    (jkMid ++ (escChars k.sk.data ++ '"' :: [rbrace])))

/-- JSON string-literal body parser: consumes through the closing quote,
undoing the escapes `escChars` introduces. -/
def parseQuoted : List Char → Option (List Char × List Char)
  | [] => none
  | c :: rest =>
    if c = '"' then some ([], rest)
    else if c = '\\' then
      match rest with
      | [] => none
      | d :: rest2 => (parseQuoted rest2).map (fun p => (d :: p.1, p.2))
    else (parseQuoted rest).map (fun p => (c :: p.1, p.2))

/-- Consumes an expected literal character sequence. -/
def expectChars : List Char → List Char → Option (List Char)
  | [], rest => some rest
  | _ :: _, [] => none
  | e :: es, c :: rest => if c = e then expectChars es rest else none

/-- Character-level `JSON.parse` for the exact object shape produced by
`jsonKeyChars` (the only shape a cursor produced by `list` can carry). -/
def parseKeyChars (l : List Char) : Option LastKey := do
  let r1 ← expectChars jkPre l
  let (pkc, r2) ← parseQuoted r1
  let r3 ← expectChars jkMid r2
  let (skc, r4) ← parseQuoted r3
  let r5 ← expectChars [rbrace] r4
  if r5 = [] then some ⟨⟨pkc⟩, ⟨skc⟩⟩ else none

/-- Embedding of the cursor serializer in `ProductModel.list`:
`Buffer.from(JSON.stringify(lastEvaluatedKey)).toString("base64")`. -/
def encodeCursor (k : LastKey) : String :=
  ⟨encB64 ((jsonKeyChars k).map Char.toNat)⟩

/-- Embedding of the cursor deserializer in `ProductModel.list`:
`JSON.parse(Buffer.from(cursor, "base64").toString())`, with `none` for the
inputs on which the JS pair would throw. -/
def decodeCursor (s : String) : Option LastKey :=
  match decB64 s.data with
  | none => none
  | some bytes => parseKeyChars (bytes.map Char.ofNat)

/-- Printable-ASCII side condition for the cursor round-trip: every
character of the string is in the range 32–127. -/
def printableAscii (s : String) : Prop :=
  ∀ c ∈ s.data, 32 ≤ c.toNat ∧ c.toNat < 128

instance (s : String) : Decidable (printableAscii s) := by
  unfold printableAscii
  infer_instance

theorem mapOfNat_mapToNat (l : List Char) :
    (l.map Char.toNat).map Char.ofNat = l := by
  induction l with
  | nil => rfl
  | cons c rest ih => simp [Char.ofNat_toNat, ih]

theorem escChars_bounds (l : List Char) (h : ∀ c ∈ l, c.toNat < 128) :
    ∀ c ∈ escChars l, c.toNat < 128 := by
  induction l with
  | nil => intro c hc; cases hc
  | cons x rest ih =>
    intro c hc
    unfold escChars at hc
    by_cases hx : x = '"' ∨ x = '\\'
    · rw [if_pos hx] at hc
      simp only [List.mem_cons] at hc
      rcases hc with hc | hc | hc
      · subst hc; decide
      · subst hc; exact h _ (List.mem_cons_self _ _)
      · exact ih (fun d hd => h d (by simp [hd])) c hc
    · rw [if_neg hx] at hc
      simp only [List.mem_cons] at hc
      rcases hc with hc | hc
      · subst hc; exact h _ (List.mem_cons_self _ _)
      · exact ih (fun d hd => h d (by simp [hd])) c hc

theorem jsonKeyChars_bounds (k : LastKey) (hpk : printableAscii k.pk)
    (hsk : printableAscii k.sk) :
    ∀ x ∈ (jsonKeyChars k).map Char.toNat, x < 256 := by
  intro x hx
  rcases List.mem_map.mp hx with ⟨c, hc, rfl⟩
  unfold jsonKeyChars at hc
  have hpk' : ∀ d ∈ escChars k.pk.data, d.toNat < 128 :=
    escChars_bounds _ (fun d hd => (hpk d hd).2)
  have hsk' : ∀ d ∈ escChars k.sk.data, d.toNat < 128 :=
    escChars_bounds _ (fun d hd => (hsk d hd).2)
  simp only [List.mem_append, List.mem_cons] at hc
  rcases hc with hc | (hc | (hc | (hc | hc)))
  · have hlt : c.toNat < 128 := by
      unfold jkPre at hc
      fin_cases hc <;> decide
    omega
  · have := hpk' c hc; omega
  · subst hc; decide
  · have hlt : c.toNat < 128 := by
      unfold jkMid at hc
      fin_cases hc <;> decide
    omega
  · rcases hc with hc | hc | hc
    · have := hsk' c hc; omega
    · subst hc; decide
    · simp only [List.mem_cons, List.not_mem_nil, or_false] at hc
      subst hc; decide

theorem parseQuoted_escChars (s : List Char) (rest : List Char) :
    parseQuoted (escChars s ++ '"' :: rest) = some (s, rest) := by
  induction s with
  | nil =>
    simp only [escChars, List.nil_append]
    unfold parseQuoted
    simp
  | cons c s' ih =>
    by_cases hc : c = '"' ∨ c = '\\'
    · show parseQuoted (escChars (c :: s') ++ '"' :: rest) = _
      unfold escChars
      rw [if_pos hc]
      show parseQuoted ('\\' :: c :: (escChars s' ++ '"' :: rest)) = _
      unfold parseQuoted
      rw [if_neg (by decide), if_pos rfl]
      simp [ih]
    · push_neg at hc
      show parseQuoted (escChars (c :: s') ++ '"' :: rest) = _
      unfold escChars
      rw [if_neg (by tauto)]
      show parseQuoted (c :: (escChars s' ++ '"' :: rest)) = _
      unfold parseQuoted
      rw [if_neg hc.1, if_neg hc.2]
      simp [ih]

theorem expectChars_append (e rest : List Char) :
    expectChars e (e ++ rest) = some rest := by
  induction e with
  | nil => rfl
  | cons c es ih =>
    show expectChars (c :: es) (c :: (es ++ rest)) = some rest
    unfold expectChars
    rw [if_pos rfl]
    exact ih

theorem parseKeyChars_jsonKeyChars (k : LastKey) :
    parseKeyChars (jsonKeyChars k) = some k := by
  unfold parseKeyChars jsonKeyChars
  rw [expectChars_append]
  simp only [Option.bind_eq_bind, Option.some_bind]
  rw [parseQuoted_escChars]
  simp only [Option.some_bind]
  rw [expectChars_append]
  simp only [Option.some_bind]
  rw [parseQuoted_escChars]
  simp only [Option.some_bind]
  have h5 : expectChars [rbrace] [rbrace] = some [] := expectChars_append [rbrace] []
  rw [h5]
  simp

theorem decodeCursor_encodeCursor (k : LastKey) (hpk : printableAscii k.pk)
    (hsk : printableAscii k.sk) : decodeCursor (encodeCursor k) = some k := by
  unfold decodeCursor encodeCursor
  rw [show (String.mk (encB64 ((jsonKeyChars k).map Char.toNat))).data =
    encB64 ((jsonKeyChars k).map Char.toNat) from rfl]
  rw [decB64_encB64 _ (jsonKeyChars_bounds k hpk hsk)]
  show parseKeyChars (((jsonKeyChars k).map Char.toNat).map Char.ofNat) = some k
  rw [mapOfNat_mapToNat]
  exact parseKeyChars_jsonKeyChars k

/-- Scan resume position: with no `ExclusiveStartKey` the scan covers the
whole table; with one, it covers the items strictly after the item bearing
that key in storage order (nothing if no such item remains). -/
def scanStart (t : Table) : Option LastKey → Table
  | none => t
  | some k =>
    match t.findIdx? (fun it => it.pk == k.pk && it.sk == k.sk) with
    | some n => t.drop (n + 1)
    | none => []

/-- The scan's `FilterExpression`: `begins_with(pk, PRODUCT#) AND
begins_with(sk, DETAILS#)`. -/
def productScanFilter (it : Item) : Bool :=
  strHasPre "PRODUCT#" it.pk && strHasPre "DETAILS#" it.sk

/-- Core of `ProductModel.list` after cursor decoding: a DynamoDB scan with
`Limit` applied to the items evaluated (before the filter), returning the
filtered page and, when the scan stopped before the end of the table, the
key of the last evaluated item as the next page-boundary marker. -/
def ProductModel.listFrom (t : Table) (limit : Nat) (start : Option LastKey) :
    List Item × Option LastKey :=
  let rest := scanStart t start
  let page := rest.take limit
  let lek := if limit < rest.length then
      page.getLast?.map (fun it => LastKey.mk it.pk it.sk)
    else none
  (page.filter productScanFilter, lek)

/-- Embedding of `ProductModel.list`: decodes the optional cursor (a cursor
the JS decoder would throw on yields the thrown error), scans, and encodes
the next page-boundary marker as the returned cursor. -/
def ProductModel.list (t : Table) (limit : Nat) (cursor : Option String) :
    Except String (List Item × Option String) :=
  match cursor with
  | none =>
    let r := ProductModel.listFrom t limit none
    .ok (r.1, r.2.map encodeCursor)
  | some c =>
    match decodeCursor c with
    | none => .error "SyntaxError: invalid cursor"
    | some k =>
      let r := ProductModel.listFrom t limit (some k)
      .ok (r.1, r.2.map encodeCursor)

/-!
Helper lemmas about record keys and shared sub-results of the operations.
-/

theorem strHasPre_append (p s : String) : strHasPre p (p ++ s) = true := by
  unfold strHasPre
  rw [String.data_append, List.isPrefixOf_iff_prefix]
  exact List.prefix_append _ _

theorem append_right_ne (a x y : String) (h : x ≠ y) : a ++ x ≠ a ++ y := by
  intro hc
  apply h
  have hd := congrArg String.data hc
  rw [String.data_append, String.data_append] at hd
  exact String.ext (List.append_cancel_left hd)

theorem append_ne_of_head_ne (a b x y : String) (ca cb : Char)
    (ha : a.data.head? = some ca) (hb : b.data.head? = some cb)
    (hne : ca ≠ cb) : a ++ x ≠ b ++ y := by
  intro hc
  have hd := congrArg String.data hc
  rw [String.data_append, String.data_append] at hd
  cases hda : a.data with
  | nil => rw [hda] at ha; cases ha
  | cons c0 ta =>
    cases hdb : b.data with
    | nil => rw [hdb] at hb; cases hb
    | cons c1 tb =>
      rw [hda] at ha
      rw [hdb] at hb
      rw [hda, hdb] at hd
      apply hne
      have h0 : c0 = ca := by injection ha
      have h1 : c1 = cb := by injection hb
      have h2 : c0 = c1 := by injection hd
      rw [h0, h1] at h2
      exact h2

theorem productKey_ne_categoryKey (x y : String) :
    ("PRODUCT#" ++ x : String) ≠ "CATEGORY#" ++ y :=
  append_ne_of_head_ne _ _ _ _ 'P' 'C' rfl rfl (by decide)

theorem categoryKey_ne_productKey (x y : String) :
    ("CATEGORY#" ++ x : String) ≠ "PRODUCT#" ++ y :=
  append_ne_of_head_ne _ _ _ _ 'C' 'P' rfl rfl (by decide)

theorem getItem_eraseItem_of_none (t : Table) (pk sk pk' sk' : String)
    (h : getItem t pk sk = none) :
    getItem (eraseItem t pk' sk') pk sk = none := by
  unfold getItem eraseItem at *
  rw [List.find?_eq_none] at h ⊢
  intro x hx
  exact h x (List.mem_of_mem_filter hx)

theorem mem_putItem_of_ne (t : Table) (it nit : Item)
    (hmem : it ∈ t) (hne : keyIs it nit.pk nit.sk = false) :
    it ∈ putItem t nit := by
  unfold putItem eraseItem
  exact List.mem_cons_of_mem _ (List.mem_filter.mpr ⟨hmem, by simp [hne]⟩)

theorem transactWrite_allOK (t : Table) (ops : List TOp)
    (h : ∀ op ∈ ops, condOK t op = true) :
    transactWrite t ops = .ok (ops.foldl applyTOp t) := by
  unfold transactWrite
  rw [if_pos (List.all_eq_true.mpr h)]

theorem UserModel.findById_strips (t : Table) (uid : String) (u : Item)
    (h : UserModel.findById t uid = some u) :
    getA u.attrs "password" = none := by
  unfold UserModel.findById at h
  rcases Option.map_eq_some'.mp h with ⟨it, _, rfl⟩
  exact getA_removeA_self _ _

theorem UserModel.create_strips (t : Table) (d : UserData)
    (uid hash now : String) (r : Item) (t' : Table)
    (h : UserModel.create t d uid hash now = (.ok r, t')) :
    getA r.attrs "password" = none := by
  unfold UserModel.create at h
  split at h
  · have hr := congrArg Prod.fst h
    simp only [Except.ok.injEq] at hr
    rw [← hr]
    exact getA_removeA_self _ _
  · exact absurd (congrArg Prod.fst h) (by simp)

theorem UserModel.update_strips (t : Table) (uid : String) (updates : Attrs)
    (hashf : String → String) (now : String) (r : Item) (t' : Table)
    (h : UserModel.update t uid updates hashf now = (.ok r, t')) :
    getA r.attrs "password" = none := by
  unfold UserModel.update at h
  split at h
  · exact absurd (congrArg Prod.fst h) (by simp)
  · split at h
    · have hr := congrArg Prod.fst h
      simp only [Except.ok.injEq] at hr
      rw [← hr]
      exact getA_removeA_self _ _
    · exact absurd (congrArg Prod.fst h) (by simp)

/-- C6 (amended): `create`, `findById` and `update` strip the `password`
attribute from every value they return, even though the stored primary
record carries it; `findByEmail` and `validateCredentials` — which the
original claim also names as value-returning — never return a value at all
on this backend: the former's `get` carries a malformed `begins_with` key
and the latter queries the nonexistent `EmailIndex` GSI, so both throw a
`ValidationException` on every input.  Hence no value any of the five
operations returns ever carries the password. -/
theorem c6_amended_password_never_returned :
    (∀ (t : Table) (d : UserData) (uid hash now : String) (r : Item)
      (t' : Table), UserModel.create t d uid hash now = (.ok r, t') →
      getA r.attrs "password" = none) ∧
    (∀ (t : Table) (uid : String) (u : Item),
      UserModel.findById t uid = some u → getA u.attrs "password" = none) ∧
    (∀ (t : Table) (uid : String) (updates : Attrs)
      (hashf : String → String) (now : String) (r : Item) (t' : Table),
      UserModel.update t uid updates hashf now = (.ok r, t') →
      getA r.attrs "password" = none) ∧
    (∀ (t : Table) (e : String),
      UserModel.findByEmail t e = .error "ValidationException") ∧
    (∀ (t : Table) (e pw : String) (chk : String → String → Bool),
      UserModel.validateCredentials t e pw chk =
        .error "ValidationException") :=
  ⟨UserModel.create_strips, UserModel.findById_strips,
    UserModel.update_strips, fun _ _ => rfl, fun _ _ _ _ => rfl⟩

/-- User payload used by the concrete check of C6 and C9. -/
def wUserData : UserData := ⟨"a@x.com", "pw", none, none, none, none⟩

/-- Concrete table holding one user and its email index record. -/
def wUserTable : Table :=
  [UserModel.primaryItem wUserData "u1" "h1" "2020",
   UserModel.emailIndexItem "a@x.com" "u1"]

/-- Item returned by the concrete `UserModel.create` run of the witness. -/
def wCreatedUser : Item :=
  ((UserModel.create [] wUserData "u1" "h1" "2020").1).toOption.getD ⟨"", "", []⟩

/-- Item returned by the concrete `UserModel.update` run of the witness. -/
def wUpdatedUser : Item :=
  ((UserModel.update wUserTable "u1" [("firstName", AttrVal.s "Bob")]
    (fun s => s) "2021").1).toOption.getD ⟨"", "", []⟩

/-- C6, counterexample: at a table that stores the matching user and its
email index record, `findByEmail` and `validateCredentials` — named by the
claim as value-returning operations of the adapter — return no value at
all: the malformed `get` key and the missing `EmailIndex` GSI make both
throw. -/
theorem c6_counterexample :
    UserModel.findByEmail wUserTable "a@x.com" =
      .error "ValidationException" ∧
    UserModel.validateCredentials wUserTable "a@x.com" "pw"
      (fun _ _ => true) = .error "ValidationException" :=
  ⟨rfl, rfl⟩

theorem c6_witness :
    getA wCreatedUser.attrs "password" = none ∧
    getA (((UserModel.findById wUserTable "u1").getD ⟨"", "", []⟩).attrs)
      "password" = none ∧
    getA wUpdatedUser.attrs "password" = none ∧
    UserModel.findByEmail wUserTable "b@x.com" =
      .error "ValidationException" ∧
    UserModel.validateCredentials wUserTable "b@x.com" "pw"
      (fun _ _ => false) = .error "ValidationException" :=
  ⟨c6_amended_password_never_returned.1 [] wUserData "u1" "h1" "2020"
      wCreatedUser (UserModel.create [] wUserData "u1" "h1" "2020").2 rfl,
   c6_amended_password_never_returned.2.1 wUserTable "u1"
      ((UserModel.findById wUserTable "u1").getD ⟨"", "", []⟩) rfl,
   c6_amended_password_never_returned.2.2.1 wUserTable "u1"
      [("firstName", AttrVal.s "Bob")] (fun s => s) "2021" wUpdatedUser
      (UserModel.update wUserTable "u1" [("firstName", AttrVal.s "Bob")]
        (fun s => s) "2021").2 rfl,
   c6_amended_password_never_returned.2.2.2.1 wUserTable "b@x.com",
   c6_amended_password_never_returned.2.2.2.2 wUserTable "b@x.com" "pw"
      (fun _ _ => false)⟩

/-- C8: for every configuration whose backend flag is neither "rds" nor
"dynamodb", `initializeDatabase` takes the invalid-database-type path and
terminates fatally (its catch block exits the process), binding neither
adapter. -/
theorem c8_invalid_backend_fails_fast (dbType : String)
    (h1 : dbType ≠ "rds") (h2 : dbType ≠ "dynamodb") :
    initializeDatabase dbType =
      .fatalExit "Invalid database type specified in configuration." ∧
    initializeDatabase dbType ≠ .rds ∧
    initializeDatabase dbType ≠ .dynamo := by
  unfold initializeDatabase
  rw [if_neg h1, if_neg h2]
  exact ⟨rfl, by simp, by simp⟩

theorem c8_witness :
    initializeDatabase "mongodb" =
      .fatalExit "Invalid database type specified in configuration." ∧
    initializeDatabase "mongodb" ≠ .rds ∧
    initializeDatabase "mongodb" ≠ .dynamo :=
  c8_invalid_backend_fails_fast "mongodb" (by decide) (by decide)

/-- C9, counterexample: with a non-empty email and a non-empty password the
register checks do not reach `UserModel.create` — the duplicate-email
lookup throws first and the request ends as a server error — and the
outcome is identical for a password the strength validator rejects and one
it accepts, so the validator plays no role either way. -/
theorem c9_counterexample :
    registerCheck [] "a@x.com" "weak" none none =
      .serverError "ValidationException" ∧
    registerCheck [] "a@x.com" "Abcd1234" none none =
      .serverError "ValidationException" ∧
    (validatePassword "weak").isValid = false ∧
    (validatePassword "Abcd1234").isValid = true :=
  ⟨rfl, rfl, by decide, by decide⟩

/-- C9 (amended): the register controller never invokes the
password-strength validator — for every non-empty email the outcome is the
same for any two non-empty passwords, whatever `validatePassword` says of
them — but the request does not proceed to user creation on the key-value
backend either: the duplicate-email lookup through `UserModel.findByEmail`
throws its `ValidationException` unconditionally, which the controller's
catch hands to the error middleware before `UserModel.create` is ever
reached. -/
theorem c9_amended_register_never_reaches_create (t : Table)
    (email p1 p2 : String) (firstName lastName : Option String)
    (he : email ≠ "") (hp1 : p1 ≠ "") (hp2 : p2 ≠ "") :
    registerCheck t email p1 firstName lastName =
      .serverError "ValidationException" ∧
    registerCheck t email p1 firstName lastName =
      registerCheck t email p2 firstName lastName := by
  have h : ∀ p : String, p ≠ "" →
      registerCheck t email p firstName lastName =
        .serverError "ValidationException" := by
    intro p hp
    unfold registerCheck
    rw [if_neg (by simp [he, hp])]
    rfl
  exact ⟨h p1 hp1, (h p1 hp1).trans (h p2 hp2).symm⟩

theorem c9_witness :
    registerCheck [] "a@x.com" "short" none none =
      .serverError "ValidationException" ∧
    registerCheck [] "a@x.com" "short" none none =
      registerCheck [] "a@x.com" "Xyzw5678" none none ∧
    (validatePassword "short").isValid = false ∧
    (validatePassword "Xyzw5678").isValid = true := by
  have hh := c9_amended_register_never_reaches_create [] "a@x.com" "short"
    "Xyzw5678" none none (by decide) (by decide) (by decide)
  exact ⟨hh.1, hh.2, by decide, by decide⟩

/-- C5: a key-value Product delete fails with "not found" when the primary
record is absent, fails with "unauthorized" (not "not found") when the
supplied caller id differs from the stored owner, leaves the table untouched
in both error cases because the checks precede any write, and on success
removes the primary record, the owner index record, and (when a category is
set) the category index record. -/
theorem c5_delete_checks_and_removals (t : Table) (productId userId : String) :
    (ProductModel.findById t productId = none →
      ProductModel.delete t productId userId = (.error "Product not found", t)) ∧
    (∀ p, ProductModel.findById t productId = some p →
      getA p.attrs "userId" ≠ some (.s userId) →
      ProductModel.delete t productId userId =
        (.error "Unauthorized to delete this product", t)) ∧
    (∀ p, ProductModel.findById t productId = some p →
      getA p.attrs "userId" = some (.s userId) →
      (ProductModel.delete t productId userId).1 = .ok true ∧
      getItem (ProductModel.delete t productId userId).2
        ("PRODUCT#" ++ productId) ("DETAILS#" ++ productId) = none ∧
      getItem (ProductModel.delete t productId userId).2
        ("USER#" ++ userId) ("PRODUCT#" ++ productId) = none ∧
      (truthy (getA p.attrs "category") = true →
        getItem (ProductModel.delete t productId userId).2
          ("CATEGORY#" ++ jsStr (getA p.attrs "category"))
          ("PRODUCT#" ++ productId) = none)) := by
  refine ⟨?_, ?_, ?_⟩
  · intro h
    unfold ProductModel.delete
    rw [h]
  · intro p hp hne
    unfold ProductModel.delete
    simp only [hp]
    rw [if_pos (bne_iff_ne.mpr hne)]
  · intro p hp howner
    unfold ProductModel.delete
    simp only [hp]
    rw [if_neg (by simp [howner])]
    have hops : ∀ op ∈ ProductModel.deleteOps p productId userId,
        condOK t op = true := by
      intro op hop
      unfold ProductModel.deleteOps at hop
      rcases List.mem_append.mp hop with hmem | hmem
      · simp only [List.mem_cons, List.not_mem_nil, or_false] at hmem
        rcases hmem with rfl | rfl <;> rfl
      · split at hmem
        · simp only [List.mem_cons, List.not_mem_nil, or_false] at hmem
          subst hmem; rfl
        · cases hmem
    rw [transactWrite_allOK t _ hops]
    by_cases htr : truthy (getA p.attrs "category") = true
    · have hdel : ProductModel.deleteOps p productId userId =
          [.del ("PRODUCT#" ++ productId) ("DETAILS#" ++ productId),
           .del ("USER#" ++ userId) ("PRODUCT#" ++ productId),
           .del ("CATEGORY#" ++ jsStr (getA p.attrs "category"))
             ("PRODUCT#" ++ productId)] := by
        simp [ProductModel.deleteOps, htr]
      rw [hdel]
      refine ⟨rfl, ?_, ?_, fun _ => ?_⟩
      · exact getItem_eraseItem_of_none _ _ _ _ _
          (getItem_eraseItem_of_none _ _ _ _ _ (getItem_eraseItem_self _ _ _))
      · exact getItem_eraseItem_of_none _ _ _ _ _
          (getItem_eraseItem_self _ _ _)
      · exact getItem_eraseItem_self _ _ _
    · have hdel : ProductModel.deleteOps p productId userId =
          [.del ("PRODUCT#" ++ productId) ("DETAILS#" ++ productId),
           .del ("USER#" ++ userId) ("PRODUCT#" ++ productId)] := by
        simp [ProductModel.deleteOps, htr]
      rw [hdel]
      refine ⟨rfl, ?_, ?_, fun hcat => absurd hcat htr⟩
      · exact getItem_eraseItem_of_none _ _ _ _ _
          (getItem_eraseItem_self _ _ _)
      · exact getItem_eraseItem_self _ _ _

/-- Product payload used by the concrete checks. -/
def wPD : ProductData := ⟨.s "W", .null, .n 10, .null, .s "a", .null⟩

/-- Concrete primary record of the witness product (category "a"). -/
def wProdItem : Item := ProductModel.primaryItem wPD "u1" "p1" "2020"

/-- Concrete table holding the witness product and its two index records. -/
def wProdTable : Table :=
  [wProdItem, ProductModel.userIndexItem "u1" "p1",
   ProductModel.categoryIndexItem "a" "p1"]

theorem c5_witness :
    ProductModel.delete [] "p1" "u1" = (.error "Product not found", []) ∧
    ProductModel.delete wProdTable "p1" "u2" =
      (.error "Unauthorized to delete this product", wProdTable) ∧
    (ProductModel.delete wProdTable "p1" "u1").1 = .ok true ∧
    getItem (ProductModel.delete wProdTable "p1" "u1").2
      ("PRODUCT#" ++ "p1") ("DETAILS#" ++ "p1") = none ∧
    getItem (ProductModel.delete wProdTable "p1" "u1").2
      ("USER#" ++ "u1") ("PRODUCT#" ++ "p1") = none ∧
    getItem (ProductModel.delete wProdTable "p1" "u1").2
      ("CATEGORY#" ++ jsStr (getA wProdItem.attrs "category"))
      ("PRODUCT#" ++ "p1") = none := by
  have h3 := (c5_delete_checks_and_removals wProdTable "p1" "u1").2.2 wProdItem
    rfl (by decide)
  exact ⟨(c5_delete_checks_and_removals [] "p1" "u1").1 rfl,
    (c5_delete_checks_and_removals wProdTable "p1" "u2").2.1 wProdItem rfl
      (by decide),
    h3.1, h3.2.1, h3.2.2.1, h3.2.2.2 (by decide)⟩

/-- Concrete table whose email index record references a user that has no
primary record. -/
def wDanglingTable : Table := [UserModel.emailIndexItem "a@x.com" "ghost"]

/-- C4, code-level divergence: the claim (and the spec) say the email
lookup treats an email index record whose primary record is missing as not
found and returns null; at that very input the code throws instead — its
`get` passes `sk: \x7b begins_with \x7d` as a key value, which the service
rejects with a `ValidationException` before reading anything — so the
claimed null-return does not exist in the program.  The owner and category
lookups do behave as claimed: every returned item is a stored primary
record resolved through `findById`, and an index record whose primary
record is missing contributes nothing to the result set (shown concretely
on dangling-index tables). -/
theorem c4_email_lookup_throws_owner_category_omit :
    UserModel.findByEmail wDanglingTable "a@x.com" =
      .error "ValidationException" ∧
    (∀ (t : Table) (uid : String) (p : Item),
      p ∈ ProductModel.findByUserId t uid →
      ∃ i, ProductModel.findById t i = some p) ∧
    (∀ (t : Table) (c : String) (p : Item),
      p ∈ ProductModel.findByCategory t c →
      ∃ i, ProductModel.findById t i = some p) ∧
    ProductModel.findByUserId [ProductModel.userIndexItem "u1" "ghost"] "u1"
      = [] ∧
    ProductModel.findByCategory
      [ProductModel.categoryIndexItem "a" "ghost"] "a" = [] := by
  refine ⟨rfl, ?_, ?_, rfl, rfl⟩
  · intro t uid p hp
    unfold ProductModel.findByUserId at hp
    rcases List.mem_filterMap.mp hp with ⟨it, _, hres⟩
    exact ⟨_, hres⟩
  · intro t c p hp
    unfold ProductModel.findByCategory at hp
    rcases List.mem_filterMap.mp hp with ⟨it, _, hres⟩
    exact ⟨_, hres⟩

theorem c4_witness :
    UserModel.findByEmail wDanglingTable "a@x.com" =
      .error "ValidationException" ∧
    (∃ i, ProductModel.findById wProdTable i = some wProdItem) ∧
    (∃ i, ProductModel.findById wProdTable i = some wProdItem) ∧
    ProductModel.findByUserId [ProductModel.userIndexItem "u1" "ghost"] "u1"
      = [] :=
  ⟨c4_email_lookup_throws_owner_category_omit.1,
   c4_email_lookup_throws_owner_category_omit.2.1 wProdTable "u1" wProdItem
      (by decide),
   c4_email_lookup_throws_owner_category_omit.2.2.1 wProdTable "a" wProdItem
      (by decide),
   c4_email_lookup_throws_owner_category_omit.2.2.2.1⟩

/-- Whether a transaction member is a `Put` guarded by a must-not-exist
condition. -/
def isCondPut : TOp → Bool
  | .put _ c => c
  | .del _ _ => false

/-- C2, counterexample: in the transaction issued by `ProductModel.create`
for a product with a (truthy) category, not every item carries a
must-not-exist condition — the category index put is unconditioned. -/
theorem c2_counterexample :
    (ProductModel.createOps wPD "u1" "p1" "2020").all isCondPut = false := by
  decide

/-- C2 (amended): `UserModel.create` writes its two records in one
transaction, each put guarded by a must-not-exist condition, and maps a
cancelled transaction to the duplicate-email conflict; `ProductModel.create`
guards its primary and owner-index puts the same way but writes the category
index record (when present) without any condition; in both models an error
leaves the table unchanged — no partial write is observable — and an
existing email index record makes `UserModel.create` fail with the
conflict. -/
theorem c2_amended_create_transactions :
    (∀ (d : UserData) (uid hash now : String),
      (UserModel.createOps d uid hash now).all isCondPut = true) ∧
    (∀ (pd : ProductData) (uid pid now : String),
      ((ProductModel.createOps pd uid pid now).take 2).all isCondPut = true) ∧
    (∀ (pd : ProductData) (uid pid now : String),
      truthy (some pd.category) = true →
      TOp.put (ProductModel.categoryIndexItem (attrToStr pd.category) pid)
        false ∈ ProductModel.createOps pd uid pid now) ∧
    (∀ (t : Table) (d : UserData) (uid hash now e : String),
      (UserModel.create t d uid hash now).1 = .error e →
      (UserModel.create t d uid hash now).2 = t ∧
      e = "User with this email already exists") ∧
    (∀ (t : Table) (pd : ProductData) (uid pid now e : String),
      (ProductModel.create t pd uid pid now).1 = .error e →
      (ProductModel.create t pd uid pid now).2 = t) ∧
    (∀ (t : Table) (d : UserData) (uid hash now : String),
      getItem t ("EMAIL#" ++ d.email) ("USER#" ++ uid) ≠ none →
      UserModel.create t d uid hash now =
        (.error "User with this email already exists", t)) := by
  refine ⟨fun _ _ _ _ => rfl, fun _ _ _ _ => rfl, ?_, ?_, ?_, ?_⟩
  · intro pd uid pid now h
    simp [ProductModel.createOps, h]
  · intro t d uid hash now e h
    unfold UserModel.create at h ⊢
    cases htw : transactWrite t (UserModel.createOps d uid hash now) with
    | ok tt => rw [htw] at h; simp at h
    | error e' =>
      rw [htw] at h
      refine ⟨rfl, ?_⟩
      have h' : (Except.error "User with this email already exists" :
          Except String Item) = .error e := h
      have h2 : ("User with this email already exists" : String) = e := by
        injection h'
      exact h2.symm
  · intro t pd uid pid now e h
    unfold ProductModel.create at h ⊢
    cases htw : transactWrite t (ProductModel.createOps pd uid pid now) with
    | ok tt => rw [htw] at h; simp at h
    | error e' => rfl
  · intro t d uid hash now hne
    unfold UserModel.create
    have htw : transactWrite t (UserModel.createOps d uid hash now) =
        .error "TransactionCanceledException" := by
      unfold transactWrite
      rw [if_neg]
      intro hall
      rw [List.all_eq_true] at hall
      have h2 := hall (.put (UserModel.emailIndexItem d.email uid) true)
        (by simp [UserModel.createOps])
      rw [show condOK t (.put (UserModel.emailIndexItem d.email uid) true) =
        (getItem t ("EMAIL#" ++ d.email) ("USER#" ++ uid)).isNone from rfl] at h2
      rw [Option.isNone_iff_eq_none] at h2
      exact hne h2
    rw [htw]

theorem c2_witness :
    (UserModel.createOps wUserData "u1" "h1" "2020").all isCondPut = true ∧
    ((ProductModel.createOps wPD "u1" "p1" "2020").take 2).all isCondPut
      = true ∧
    TOp.put (ProductModel.categoryIndexItem (attrToStr wPD.category) "p1")
      false ∈ ProductModel.createOps wPD "u1" "p1" "2020" ∧
    ((UserModel.create wUserTable wUserData "u1" "h1" "2020").2 = wUserTable ∧
      "User with this email already exists" =
        "User with this email already exists") ∧
    (ProductModel.create wProdTable wPD "u1" "p1" "2020").2 = wProdTable ∧
    UserModel.create wUserTable wUserData "u1" "h1" "2020" =
      (.error "User with this email already exists", wUserTable) :=
  ⟨c2_amended_create_transactions.1 wUserData "u1" "h1" "2020",
   c2_amended_create_transactions.2.1 wPD "u1" "p1" "2020",
   c2_amended_create_transactions.2.2.1 wPD "u1" "p1" "2020" rfl,
   c2_amended_create_transactions.2.2.2.1 wUserTable wUserData "u1" "h1"
     "2020" "User with this email already exists" rfl,
   c2_amended_create_transactions.2.2.2.2.1 wProdTable wPD "u1" "p1" "2020"
     "TransactionCanceledException" rfl,
   c2_amended_create_transactions.2.2.2.2.2 wUserTable wUserData "u1" "h1"
     "2020" (by decide)⟩

theorem catStep_condOK (t : Table) (oldPk oldSk : String) (newItem : Item) :
    ∀ op ∈ [TOp.del oldPk oldSk, TOp.put newItem false], condOK t op = true := by
  intro op hop
  simp only [List.mem_cons, List.not_mem_nil, or_false] at hop
  rcases hop with rfl | rfl <;> rfl

theorem catStep_preserves_primary (t : Table) (p : Item) (pid : String)
    (updates : Attrs) :
    getItem (ProductModel.catStep t p pid updates)
      ("PRODUCT#" ++ pid) ("DETAILS#" ++ pid) =
    getItem t ("PRODUCT#" ++ pid) ("DETAILS#" ++ pid) := by
  unfold ProductModel.catStep
  split
  · dsimp only
    split
    · rw [transactWrite_allOK t _ (catStep_condOK t _ _ _)]
      show getItem (putItem (eraseItem t _ _)
        (ProductModel.categoryIndexItem _ pid)) _ _ = _
      rw [getItem_putItem_ne _ _ _ _
        (Or.inl (productKey_ne_categoryKey pid _))]
      exact getItem_eraseItem_ne _ _ _ _ _
        (Or.inl (productKey_ne_categoryKey pid _))
    · exact getItem_putItem_ne _ _ _ _
        (Or.inl (productKey_ne_categoryKey pid _))
  · rfl

theorem productPatch_excludes (updates : Attrs) (now : String) (k : String)
    (hk : k = "id" ∨ k = "userId" ∨ k = "createdAt") :
    ∀ q ∈ ProductModel.buildPatch updates now, q.1 ≠ k := by
  intro q hq
  unfold ProductModel.buildPatch at hq
  rcases List.mem_cons.mp hq with rfl | hq'
  · show "updatedAt" ≠ k
    rcases hk with rfl | rfl | rfl <;> decide
  · have hpred := List.of_mem_filter hq'
    simp only [Bool.and_eq_true, bne_iff_ne] at hpred
    obtain ⟨⟨⟨⟨h1, h2⟩, _⟩, _⟩, h5⟩ := hpred
    rcases hk with rfl | rfl | rfl
    · exact h1
    · exact h2
    · exact h5

theorem userPatch_excludes (updates : Attrs) (hashf : String → String)
    (now : String) (k : String) (hk : k = "id" ∨ k = "email") :
    ∀ q ∈ UserModel.buildPatch updates hashf now, q.1 ≠ k := by
  intro q hq
  unfold UserModel.buildPatch at hq
  have hk' : k ≠ "updatedAt" ∧ k ≠ "password" := by
    rcases hk with rfl | rfl <;> exact ⟨by decide, by decide⟩
  split at hq
  · rcases List.mem_append.mp hq with hq' | hq'
    · rcases List.mem_cons.mp hq' with rfl | hq''
      · exact fun hc => hk'.1 hc.symm
      · have hpred := List.of_mem_filter hq''
        simp only [Bool.and_eq_true, bne_iff_ne] at hpred
        rcases hk with rfl | rfl
        · exact hpred.1.1
        · exact hpred.1.2
    · simp only [List.mem_cons, List.not_mem_nil, or_false] at hq'
      subst hq'
      exact fun hc => hk'.2 hc.symm
  · rcases List.mem_cons.mp hq with rfl | hq''
    · exact fun hc => hk'.1 hc.symm
    · have hpred := List.of_mem_filter hq''
      simp only [Bool.and_eq_true, bne_iff_ne] at hpred
      rcases hk with rfl | rfl
      · exact hpred.1.1
      · exact hpred.1.2

theorem userPatch_excludes_password (updates : Attrs)
    (hashf : String → String) (now : String)
    (h : truthy (getA updates "password") = false) :
    ∀ q ∈ UserModel.buildPatch updates hashf now, q.1 ≠ "password" := by
  intro q hq
  unfold UserModel.buildPatch at hq
  rw [if_neg (by simp [h])] at hq
  rcases List.mem_cons.mp hq with rfl | hq''
  · show ("updatedAt" : String) ≠ "password"
    decide
  · have hpred := List.of_mem_filter hq''
    simp only [Bool.and_eq_true, bne_iff_ne] at hpred
    exact hpred.2

/-- C3, counterexample: `UserModel.update` does not protect the creation
timestamp — a patch supplying `createdAt` overwrites it (stored value was
"2020", the returned record carries "1999"). -/
theorem c3_counterexample :
    getA ((((UserModel.update wUserTable "u1"
        [("createdAt", AttrVal.s "1999")] (fun s => s) "2021").1).toOption.getD
        ⟨"", "", []⟩).attrs) "createdAt" = some (.s "1999") ∧
    getA (UserModel.primaryItem wUserData "u1" "h1" "2020").attrs "createdAt"
      = some (.s "2020") :=
  ⟨rfl, rfl⟩

/-- C3 (amended): the key-value generic update protects `id`, the owner
reference `userId` and `createdAt` for Product (plus the key attributes),
while for User the generic patch protects only `id`, `email` and `password`
— the creation timestamp is patchable — and the stored password changes only
through the dedicated re-hash path (it is untouched whenever the patch
carries no truthy password). -/
theorem c3_amended_protected_fields :
    (∀ (t : Table) (pid : String) (updates : Attrs) (uid now : String)
      (r : Item) (t' : Table) (p : Item),
      ProductModel.findById t pid = some p →
      ProductModel.update t pid updates uid now = (.ok r, t') →
      getA r.attrs "id" = getA p.attrs "id" ∧
      getA r.attrs "userId" = getA p.attrs "userId" ∧
      getA r.attrs "createdAt" = getA p.attrs "createdAt") ∧
    (∀ (t : Table) (uid : String) (updates : Attrs)
      (hashf : String → String) (now : String) (r : Item) (t' : Table)
      (u0 : Item),
      getItem t ("USER#" ++ uid) ("PROFILE#" ++ uid) = some u0 →
      UserModel.update t uid updates hashf now = (.ok r, t') →
      ∀ u1, getItem t' ("USER#" ++ uid) ("PROFILE#" ++ uid) = some u1 →
        getA u1.attrs "id" = getA u0.attrs "id" ∧
        getA u1.attrs "email" = getA u0.attrs "email" ∧
        (truthy (getA updates "password") = false →
          getA u1.attrs "password" = getA u0.attrs "password")) := by
  constructor
  · intro t pid updates uid now r t' p hfind hupd
    have hbase : getItem (ProductModel.catStep t p pid updates)
        ("PRODUCT#" ++ pid) ("DETAILS#" ++ pid) = some p := by
      rw [catStep_preserves_primary]
      exact hfind
    unfold ProductModel.update at hupd
    simp only [hfind] at hupd
    split at hupd
    · exact absurd (congrArg Prod.fst hupd) (by simp)
    · by_cases hbp : badPatch (ProductModel.buildPatch updates now) = true
      · have hderr : dynamoUpdate (ProductModel.catStep t p pid updates)
            ("PRODUCT#" ++ pid) ("DETAILS#" ++ pid)
            (ProductModel.buildPatch updates now) = .error "ValidationException" := by
          unfold dynamoUpdate
          rw [if_pos hbp]
        rw [hderr] at hupd
        exact absurd (congrArg Prod.fst hupd) (by simp)
      · have hdok : dynamoUpdate (ProductModel.catStep t p pid updates)
            ("PRODUCT#" ++ pid) ("DETAILS#" ++ pid)
            (ProductModel.buildPatch updates now) =
            .ok (putItem (ProductModel.catStep t p pid updates)
                ⟨"PRODUCT#" ++ pid, "DETAILS#" ++ pid,
                  applyPatch p.attrs (ProductModel.buildPatch updates now)⟩,
              ⟨"PRODUCT#" ++ pid, "DETAILS#" ++ pid,
                applyPatch p.attrs (ProductModel.buildPatch updates now)⟩) := by
          unfold dynamoUpdate
          rw [if_neg hbp]
          dsimp only
          rw [hbase]
        rw [hdok] at hupd
        have hr : r = ⟨"PRODUCT#" ++ pid, "DETAILS#" ++ pid,
            applyPatch p.attrs (ProductModel.buildPatch updates now)⟩ := by
          have := congrArg Prod.fst hupd
          simp only [Except.ok.injEq] at this
          exact this.symm
        rw [hr]
        refine ⟨?_, ?_, ?_⟩
        · exact getA_applyPatch_not_mem _ _ _
            (productPatch_excludes updates now "id" (by simp))
        · exact getA_applyPatch_not_mem _ _ _
            (productPatch_excludes updates now "userId" (by simp))
        · exact getA_applyPatch_not_mem _ _ _
            (productPatch_excludes updates now "createdAt" (by simp))
  · intro t uid updates hashf now r t' u0 hget hupd u1 hu1
    unfold UserModel.update UserModel.findById at hupd
    simp only [hget] at hupd
    by_cases hbp : badPatch (UserModel.buildPatch updates hashf now) = true
    · have hderr : dynamoUpdate t ("USER#" ++ uid) ("PROFILE#" ++ uid)
          (UserModel.buildPatch updates hashf now) =
          .error "ValidationException" := by
        unfold dynamoUpdate
        rw [if_pos hbp]
      rw [hderr] at hupd
      exact absurd (congrArg Prod.fst hupd) (by simp)
    · have hdok : dynamoUpdate t ("USER#" ++ uid) ("PROFILE#" ++ uid)
          (UserModel.buildPatch updates hashf now) =
          .ok (putItem t
              ⟨"USER#" ++ uid, "PROFILE#" ++ uid,
                applyPatch u0.attrs (UserModel.buildPatch updates hashf now)⟩,
            ⟨"USER#" ++ uid, "PROFILE#" ++ uid,
              applyPatch u0.attrs (UserModel.buildPatch updates hashf now)⟩) := by
        unfold dynamoUpdate
        rw [if_neg hbp]
        dsimp only
        rw [hget]
      rw [hdok] at hupd
      have ht' : t' = putItem t
          ⟨"USER#" ++ uid, "PROFILE#" ++ uid,
            applyPatch u0.attrs (UserModel.buildPatch updates hashf now)⟩ := by
        have := congrArg Prod.snd hupd
        exact this.symm
      rw [ht'] at hu1
      rw [show getItem (putItem t
          ⟨"USER#" ++ uid, "PROFILE#" ++ uid,
            applyPatch u0.attrs (UserModel.buildPatch updates hashf now)⟩)
          ("USER#" ++ uid) ("PROFILE#" ++ uid) =
          some ⟨"USER#" ++ uid, "PROFILE#" ++ uid,
            applyPatch u0.attrs (UserModel.buildPatch updates hashf now)⟩
        from getItem_putItem_self _ _] at hu1
      injection hu1 with hu1
      rw [← hu1]
      refine ⟨?_, ?_, fun hpw => ?_⟩
      · exact getA_applyPatch_not_mem _ _ _
          (userPatch_excludes updates hashf now "id" (by simp))
      · exact getA_applyPatch_not_mem _ _ _
          (userPatch_excludes updates hashf now "email" (by simp))
      · exact getA_applyPatch_not_mem _ _ _
          (userPatch_excludes_password updates hashf now hpw)

/-- Concrete Product update run of the C3 check: the patch tries to change
`id`, `userId` and `createdAt`. -/
def wC3ProdRes : Except String Item × Table :=
  ProductModel.update wProdTable "p1"
    [("id", AttrVal.s "hack"), ("userId", AttrVal.s "evil"),
     ("createdAt", AttrVal.s "1999"), ("name", AttrVal.s "X")] "u1" "2021"

/-- Item returned by the concrete Product update run. -/
def wC3ProdItem : Item := (wC3ProdRes.1).toOption.getD ⟨"", "", []⟩

/-- Concrete User update run of the C3 check (no password in the patch). -/
def wC3UserRes : Except String Item × Table :=
  UserModel.update wUserTable "u1" [("firstName", AttrVal.s "Bob")]
    (fun s => s) "2021"

/-- Stored user record after the concrete User update run. -/
def wC3UserStored : Item :=
  (getItem wC3UserRes.2 ("USER#" ++ "u1") ("PROFILE#" ++ "u1")).getD ⟨"", "", []⟩

theorem c3_witness :
    (getA wC3ProdItem.attrs "id" = getA wProdItem.attrs "id" ∧
      getA wC3ProdItem.attrs "userId" = getA wProdItem.attrs "userId" ∧
      getA wC3ProdItem.attrs "createdAt" = getA wProdItem.attrs "createdAt") ∧
    getA wC3UserStored.attrs "id" =
      getA (UserModel.primaryItem wUserData "u1" "h1" "2020").attrs "id" ∧
    getA wC3UserStored.attrs "email" =
      getA (UserModel.primaryItem wUserData "u1" "h1" "2020").attrs "email" ∧
    getA wC3UserStored.attrs "password" =
      getA (UserModel.primaryItem wUserData "u1" "h1" "2020").attrs
        "password" := by
  have hu := c3_amended_protected_fields.2 wUserTable "u1"
    [("firstName", AttrVal.s "Bob")] (fun s => s) "2021"
    ((wC3UserRes.1).toOption.getD ⟨"", "", []⟩) wC3UserRes.2
    (UserModel.primaryItem wUserData "u1" "h1" "2020") rfl rfl
    wC3UserStored rfl
  exact ⟨c3_amended_protected_fields.1 wProdTable "p1"
      [("id", AttrVal.s "hack"), ("userId", AttrVal.s "evil"),
       ("createdAt", AttrVal.s "1999"), ("name", AttrVal.s "X")] "u1" "2021"
      wC3ProdItem wC3ProdRes.2 wProdItem rfl rfl,
    hu.1, hu.2.1, hu.2.2 rfl⟩

/-- C10: a Product patch whose category is null, empty or absent triggers no
category-index write at all — the old index record stays — while the generic
patch may still overwrite the primary record's category; consequently, after
clearing the category of a product that has an index record under C, a
`findByCategory C` lookup still returns that product. -/
theorem c10_cleared_category_leaves_stale_index :
    (∀ (t : Table) (product : Item) (pid : String) (updates : Attrs),
      truthy (getA updates "category") = false →
      ProductModel.catStep t product pid updates = t) ∧
    (∀ (t : Table) (pid uid now c : String) (updates : Attrs) (r : Item)
      (t' : Table) (p : Item),
      ProductModel.findById t pid = some p →
      truthy (getA updates "category") = false →
      ProductModel.categoryIndexItem c pid ∈ t →
      ProductModel.update t pid updates uid now = (.ok r, t') →
      r ∈ ProductModel.findByCategory t' c) ∧
    (∀ (t : Table) (pid uid now : String) (updates : Attrs) (r : Item)
      (t' : Table) (p : Item),
      ProductModel.findById t pid = some p →
      getA updates "category" = some AttrVal.null →
      dupKeys (ProductModel.buildPatch updates now) = false →
      ProductModel.update t pid updates uid now = (.ok r, t') →
      getA r.attrs "category" = some AttrVal.null) := by
  have hcat : ∀ (t : Table) (product : Item) (pid : String) (updates : Attrs),
      truthy (getA updates "category") = false →
      ProductModel.catStep t product pid updates = t := by
    intro t product pid updates h
    unfold ProductModel.catStep
    rw [if_neg (by simp [h])]
  have hok : ∀ (t : Table) (pid uid now : String) (updates : Attrs)
      (r : Item) (t' : Table) (p : Item),
      ProductModel.findById t pid = some p →
      ProductModel.catStep t p pid updates = t →
      ProductModel.update t pid updates uid now = (.ok r, t') →
      r = ⟨"PRODUCT#" ++ pid, "DETAILS#" ++ pid,
          applyPatch p.attrs (ProductModel.buildPatch updates now)⟩ ∧
      t' = putItem t ⟨"PRODUCT#" ++ pid, "DETAILS#" ++ pid,
          applyPatch p.attrs (ProductModel.buildPatch updates now)⟩ := by
    intro t pid uid now updates r t' p hfind hstep hupd
    unfold ProductModel.update at hupd
    simp only [hfind] at hupd
    split at hupd
    · exact absurd (congrArg Prod.fst hupd) (by simp)
    · rw [hstep] at hupd
      by_cases hbp : badPatch (ProductModel.buildPatch updates now) = true
      · have hderr : dynamoUpdate t ("PRODUCT#" ++ pid) ("DETAILS#" ++ pid)
            (ProductModel.buildPatch updates now) =
            .error "ValidationException" := by
          unfold dynamoUpdate
          rw [if_pos hbp]
        rw [hderr] at hupd
        exact absurd (congrArg Prod.fst hupd) (by simp)
      · have hdok : dynamoUpdate t ("PRODUCT#" ++ pid) ("DETAILS#" ++ pid)
            (ProductModel.buildPatch updates now) =
            .ok (putItem t ⟨"PRODUCT#" ++ pid, "DETAILS#" ++ pid,
                applyPatch p.attrs (ProductModel.buildPatch updates now)⟩,
              ⟨"PRODUCT#" ++ pid, "DETAILS#" ++ pid,
                applyPatch p.attrs (ProductModel.buildPatch updates now)⟩) := by
          unfold dynamoUpdate
          rw [if_neg hbp]
          dsimp only
          rw [show getItem t ("PRODUCT#" ++ pid) ("DETAILS#" ++ pid) = some p
            from hfind]
        rw [hdok] at hupd
        constructor
        · have := congrArg Prod.fst hupd
          simp only [Except.ok.injEq] at this
          exact this.symm
        · exact (congrArg Prod.snd hupd).symm
  refine ⟨hcat, ?_, ?_⟩
  · intro t pid uid now c updates r t' p hfind htr hidx hupd
    obtain ⟨hr, ht'⟩ := hok t pid uid now updates r t' p hfind
      (hcat t p pid updates htr) hupd
    unfold ProductModel.findByCategory
    apply List.mem_filterMap.mpr
    refine ⟨ProductModel.categoryIndexItem c pid, ?_, ?_⟩
    · apply List.mem_filter.mpr
      constructor
      · rw [ht']
        apply mem_putItem_of_ne _ _ _ hidx
        apply keyIs_eq_false_of_ne
        exact Or.inl (productKey_ne_categoryKey pid c)
      · simp only [Bool.and_eq_true, beq_iff_eq]
        exact ⟨rfl, strHasPre_append "PRODUCT#" pid⟩
    · show ProductModel.findById t' pid = some r
      rw [ht', hr]
      exact getItem_putItem_self _ _
  · intro t pid uid now updates r t' p hfind hg hnodup hupd
    have htr : truthy (getA updates "category") = false := by
      rw [hg]
      rfl
    have hmem : ("category", AttrVal.null) ∈ updates := by
      unfold getA at hg
      rcases Option.map_eq_some'.mp hg with ⟨q, hq, hq2⟩
      have hq1 := List.find?_some hq
      have hqe : q = ("category", AttrVal.null) := by
        cases q with
        | mk a b =>
          simp only [beq_iff_eq] at hq1
          simp only at hq2
          rw [hq1, hq2]
      rw [← hqe]
      exact List.mem_of_find?_eq_some hq
    obtain ⟨hr, _⟩ := hok t pid uid now updates r t' p hfind
      (hcat t p pid updates htr) hupd
    rw [hr]
    apply getA_applyPatch_mem _ _ _ _ _ hnodup
    unfold ProductModel.buildPatch
    apply List.mem_cons_of_mem
    apply List.mem_filter.mpr
    exact ⟨hmem, by decide⟩

/-- Concrete Product update run clearing the category of the witness
product (previously in category "a"). -/
def wC10Res : Except String Item × Table :=
  ProductModel.update wProdTable "p1" [("category", AttrVal.null)] "u1" "2021"

/-- Item returned by the category-clearing run. -/
def wC10Item : Item := (wC10Res.1).toOption.getD ⟨"", "", []⟩

theorem c10_witness :
    ProductModel.catStep wProdTable wProdItem "p1"
      [("category", AttrVal.null)] = wProdTable ∧
    wC10Item ∈ ProductModel.findByCategory wC10Res.2 "a" ∧
    getA wC10Item.attrs "category" = some AttrVal.null :=
  ⟨c10_cleared_category_leaves_stale_index.1 wProdTable wProdItem "p1"
      [("category", AttrVal.null)] rfl,
   c10_cleared_category_leaves_stale_index.2.1 wProdTable "p1" "u1" "2021"
      "a" [("category", AttrVal.null)] wC10Item wC10Res.2 wProdItem rfl rfl
      (by decide) rfl,
   c10_cleared_category_leaves_stale_index.2.2 wProdTable "p1" "u1" "2021"
      [("category", AttrVal.null)] wC10Item wC10Res.2 wProdItem rfl rfl rfl
      rfl⟩

/-- C7: the pagination cursor of the key-value product list round-trips —
a cursor produced by `list` (base64 of the JSON of the page-boundary key)
decodes back to exactly the boundary key it encoded, so a replayed cursor
resumes from the same table position, and since `list` is a function of the
table, the limit and the decoded key, replaying the same cursor twice yields
the same slice.  The printable-ASCII hypothesis covers every key string the
adapter builds (entity markers plus ids). -/
theorem c7_cursor_round_trip (t : Table) (limit : Nat) (ps : List Item)
    (c : String) (k : LastKey)
    (hvalid : ∀ it ∈ t, printableAscii it.pk ∧ printableAscii it.sk)
    (h : ProductModel.list t limit none = .ok (ps, some c))
    (hk : (ProductModel.listFrom t limit none).2 = some k) :
    c = encodeCursor k ∧ decodeCursor c = some k ∧
    ∀ n, ProductModel.list t n (some c) =
      .ok ((ProductModel.listFrom t n (some k)).1,
        (ProductModel.listFrom t n (some k)).2.map encodeCursor) := by
  have hc : encodeCursor k = c := by
    unfold ProductModel.list at h
    dsimp only at h
    rw [hk] at h
    simp only [Option.map_some', Except.ok.injEq, Prod.mk.injEq,
      Option.some.injEq] at h
    exact h.2
  have hkval : printableAscii k.pk ∧ printableAscii k.sk := by
    unfold ProductModel.listFrom at hk
    dsimp only at hk
    split at hk
    · rcases Option.map_eq_some'.mp hk with ⟨it, hlast, hkdef⟩
      have hmem : it ∈ (scanStart t none).take limit :=
        List.mem_of_mem_getLast? hlast
      have hmem2 : it ∈ t := by
        have := List.take_subset limit (scanStart t none) hmem
        simpa [scanStart] using this
      have hv := hvalid it hmem2
      rw [← hkdef]
      exact hv
    · cases hk
  have hdec : decodeCursor c = some k := by
    rw [← hc]
    exact decodeCursor_encodeCursor k hkval.1 hkval.2
  refine ⟨hc.symm, hdec, ?_⟩
  intro n
  show (match decodeCursor c with
    | none => (.error "SyntaxError: invalid cursor" : Except String (List Item × Option String))
    | some k =>
      let r := ProductModel.listFrom t n (some k)
      .ok (r.1, Option.map encodeCursor r.2)) =
    .ok ((ProductModel.listFrom t n (some k)).1,
      Option.map encodeCursor (ProductModel.listFrom t n (some k)).2)
  rw [hdec]

/-- Two-product table of the C7 check. -/
def wListTable : Table :=
  [ProductModel.primaryItem wPD "u1" "p1" "2020",
   ProductModel.primaryItem wPD "u2" "p2" "2020"]

/-- Page-boundary marker after scanning one item of `wListTable`. -/
def wBoundary : LastKey := ⟨"PRODUCT#" ++ "p1", "DETAILS#" ++ "p1"⟩

/-- Cursor returned by the concrete one-item `list` call. -/
def wCursor : String :=
  (((ProductModel.list wListTable 1 none).toOption.getD ([], none)).2).getD ""

theorem c7_witness :
    wCursor = encodeCursor wBoundary ∧
    decodeCursor wCursor = some wBoundary ∧
    ProductModel.list wListTable 1 (some wCursor) =
      .ok ((ProductModel.listFrom wListTable 1 (some wBoundary)).1,
        (ProductModel.listFrom wListTable 1 (some wBoundary)).2.map
          encodeCursor) := by
  have hh := c7_cursor_round_trip wListTable 1
    [ProductModel.primaryItem wPD "u1" "p1" "2020"] wCursor wBoundary
    (by decide) rfl rfl
  exact ⟨hh.1, hh.2.1, hh.2.2 1⟩

/-- Agreement between a product's primary record and the category index
records that point at it: when the primary record carries a truthy category
its index record exists, and every category index record for the product
points at exactly the primary record's category (with no primary record, no
category index record may point at the product). -/
def catAgreeB (t : Table) (pid : String) : Bool :=
  match getItem t ("PRODUCT#" ++ pid) ("DETAILS#" ++ pid) with
  | some p =>
    (if truthy (getA p.attrs "category") then
      (getItem t ("CATEGORY#" ++ jsStr (getA p.attrs "category"))
        ("PRODUCT#" ++ pid)).isSome
    else true) &&
    (t.filter (fun it => strHasPre "CATEGORY#" it.pk &&
        it.sk == "PRODUCT#" ++ pid)).all
      (fun it => it.pk == "CATEGORY#" ++ jsStr (getA p.attrs "category"))
  | none =>
    t.all (fun it => !(strHasPre "CATEGORY#" it.pk &&
      it.sk == "PRODUCT#" ++ pid))

/-- C1, counterexample: updating the witness product (category "a") to
category "b" succeeds, but the state `ProductModel.catStep` produces — by
definition of `ProductModel.update` the table state between its two separate
writes (the category-index transactWrite and the later primary-record
update) — has the primary record still carrying category "a" while its
category index records already reflect "b": the primary record and its
category index records disagree in a reachable intermediate state, so the
three record changes are not applied as a single atomic unit. -/
theorem c1_counterexample :
    catAgreeB wProdTable "p1" = true ∧
    ((ProductModel.update wProdTable "p1" [("category", AttrVal.s "b")] "u1"
      "2021").1).toOption.isSome = true ∧
    catAgreeB (ProductModel.catStep wProdTable wProdItem "p1"
      [("category", AttrVal.s "b")]) "p1" = false := by
  refine ⟨by decide, by decide, by decide⟩

/-- C1 (amended): when a Product patch changes the category from a truthy
stored value to a different truthy value, the removal of the old category
index record and the insertion of the new one are issued as one atomic
transaction, and the primary-record patch is a separate subsequent write:
in the intermediate state between the two writes (the value of
`ProductModel.catStep`, which `ProductModel.update` then feeds to the
primary update) the old index record is already gone and the new one
present while the primary record still carries the old category; after a
successful update the primary record carries the new category, the new
index record is present and the old one absent. -/
theorem c1_amended_category_migration (t : Table) (pid uid now : String)
    (updates : Attrs) (p : Item) (oc nc : String)
    (h1 : ProductModel.findById t pid = some p)
    (h3 : getA p.attrs "category" = some (.s oc)) (hoc : oc ≠ "")
    (h4 : getA updates "category" = some (.s nc)) (hnc : nc ≠ "")
    (hne : nc ≠ oc) :
    (getItem (ProductModel.catStep t p pid updates)
        ("CATEGORY#" ++ oc) ("PRODUCT#" ++ pid) = none ∧
      getItem (ProductModel.catStep t p pid updates)
        ("CATEGORY#" ++ nc) ("PRODUCT#" ++ pid) =
        some (ProductModel.categoryIndexItem nc pid) ∧
      getItem (ProductModel.catStep t p pid updates)
        ("PRODUCT#" ++ pid) ("DETAILS#" ++ pid) = some p) ∧
    (∀ (r : Item) (t' : Table),
      ProductModel.update t pid updates uid now = (.ok r, t') →
      getA r.attrs "category" = some (.s nc) ∧
      getItem t' ("CATEGORY#" ++ oc) ("PRODUCT#" ++ pid) = none ∧
      getItem t' ("CATEGORY#" ++ nc) ("PRODUCT#" ++ pid) =
        some (ProductModel.categoryIndexItem nc pid) ∧
      getItem t' ("PRODUCT#" ++ pid) ("DETAILS#" ++ pid) = some r) := by
  have hM : ProductModel.catStep t p pid updates =
      putItem (eraseItem t ("CATEGORY#" ++ oc) ("PRODUCT#" ++ pid))
        (ProductModel.categoryIndexItem nc pid) := by
    unfold ProductModel.catStep
    rw [h4, h3]
    rw [if_pos (by simp [truthy, hnc, hne])]
    dsimp only
    rw [if_pos (by simp [truthy, hoc])]
    rw [transactWrite_allOK t _ (catStep_condOK t _ _ _)]
    rfl
  have hMold : getItem (ProductModel.catStep t p pid updates)
      ("CATEGORY#" ++ oc) ("PRODUCT#" ++ pid) = none := by
    rw [hM]
    rw [getItem_putItem_ne _ _ _ _
      (Or.inl (append_right_ne "CATEGORY#" oc nc (Ne.symm hne)))]
    exact getItem_eraseItem_self _ _ _
  have hMnew : getItem (ProductModel.catStep t p pid updates)
      ("CATEGORY#" ++ nc) ("PRODUCT#" ++ pid) =
      some (ProductModel.categoryIndexItem nc pid) := by
    rw [hM]
    exact getItem_putItem_self _ _
  have hMprim : getItem (ProductModel.catStep t p pid updates)
      ("PRODUCT#" ++ pid) ("DETAILS#" ++ pid) = some p := by
    rw [catStep_preserves_primary]
    exact h1
  refine ⟨⟨hMold, hMnew, hMprim⟩, ?_⟩
  intro r t' hupd
  unfold ProductModel.update at hupd
  simp only [h1] at hupd
  split at hupd
  · exact absurd (congrArg Prod.fst hupd) (by simp)
  · by_cases hbp : badPatch (ProductModel.buildPatch updates now) = true
    · have hderr : dynamoUpdate (ProductModel.catStep t p pid updates)
          ("PRODUCT#" ++ pid) ("DETAILS#" ++ pid)
          (ProductModel.buildPatch updates now) =
          .error "ValidationException" := by
        unfold dynamoUpdate
        rw [if_pos hbp]
      rw [hderr] at hupd
      exact absurd (congrArg Prod.fst hupd) (by simp)
    · have hdok : dynamoUpdate (ProductModel.catStep t p pid updates)
          ("PRODUCT#" ++ pid) ("DETAILS#" ++ pid)
          (ProductModel.buildPatch updates now) =
          .ok (putItem (ProductModel.catStep t p pid updates)
              ⟨"PRODUCT#" ++ pid, "DETAILS#" ++ pid,
                applyPatch p.attrs (ProductModel.buildPatch updates now)⟩,
            ⟨"PRODUCT#" ++ pid, "DETAILS#" ++ pid,
              applyPatch p.attrs (ProductModel.buildPatch updates now)⟩) := by
        unfold dynamoUpdate
        rw [if_neg hbp]
        dsimp only
        rw [hMprim]
      rw [hdok] at hupd
      have hr : r = ⟨"PRODUCT#" ++ pid, "DETAILS#" ++ pid,
          applyPatch p.attrs (ProductModel.buildPatch updates now)⟩ := by
        have := congrArg Prod.fst hupd
        simp only [Except.ok.injEq] at this
        exact this.symm
      have ht' : t' = putItem (ProductModel.catStep t p pid updates)
          ⟨"PRODUCT#" ++ pid, "DETAILS#" ++ pid,
            applyPatch p.attrs (ProductModel.buildPatch updates now)⟩ :=
        (congrArg Prod.snd hupd).symm
      have hnodup : dupKeys (ProductModel.buildPatch updates now) = false := by
        have hbpf : badPatch (ProductModel.buildPatch updates now) = false :=
          Bool.eq_false_iff.mpr hbp
        unfold badPatch at hbpf
        exact (Bool.or_eq_false_iff.mp hbpf).2
      have hmemu : ("category", AttrVal.s nc) ∈ updates := by
        unfold getA at h4
        rcases Option.map_eq_some'.mp h4 with ⟨q, hq, hq2⟩
        have hq1 := List.find?_some hq
        have hqe : q = ("category", AttrVal.s nc) := by
          cases q with
          | mk a b =>
            simp only [beq_iff_eq] at hq1
            simp only at hq2
            rw [hq1, hq2]
        rw [← hqe]
        exact List.mem_of_find?_eq_some hq
      refine ⟨?_, ?_, ?_, ?_⟩
      · rw [hr]
        apply getA_applyPatch_mem _ _ _ _ _ hnodup
        unfold ProductModel.buildPatch
        apply List.mem_cons_of_mem
        exact List.mem_filter.mpr ⟨hmemu, rfl⟩
      · rw [ht']
        rw [getItem_putItem_ne _ _ _ _
          (Or.inl (categoryKey_ne_productKey oc pid))]
        exact hMold
      · rw [ht']
        rw [getItem_putItem_ne _ _ _ _
          (Or.inl (categoryKey_ne_productKey nc pid))]
        exact hMnew
      · rw [ht', hr]
        exact getItem_putItem_self _ _

/-- Concrete category-change run of the C1 check: "a" to "b". -/
def wC1Res : Except String Item × Table :=
  ProductModel.update wProdTable "p1" [("category", AttrVal.s "b")] "u1" "2021"

/-- Item returned by the category-change run. -/
def wC1Item : Item := (wC1Res.1).toOption.getD ⟨"", "", []⟩

theorem c1_witness :
    (getItem (ProductModel.catStep wProdTable wProdItem "p1"
        [("category", AttrVal.s "b")])
        ("CATEGORY#" ++ "a") ("PRODUCT#" ++ "p1") = none ∧
      getItem (ProductModel.catStep wProdTable wProdItem "p1"
        [("category", AttrVal.s "b")])
        ("CATEGORY#" ++ "b") ("PRODUCT#" ++ "p1") =
        some (ProductModel.categoryIndexItem "b" "p1") ∧
      getItem (ProductModel.catStep wProdTable wProdItem "p1"
        [("category", AttrVal.s "b")])
        ("PRODUCT#" ++ "p1") ("DETAILS#" ++ "p1") = some wProdItem) ∧
    getA wC1Item.attrs "category" = some (.s "b") ∧
    getItem wC1Res.2 ("CATEGORY#" ++ "a") ("PRODUCT#" ++ "p1") = none ∧
    getItem wC1Res.2 ("CATEGORY#" ++ "b") ("PRODUCT#" ++ "p1") =
      some (ProductModel.categoryIndexItem "b" "p1") ∧
    getItem wC1Res.2 ("PRODUCT#" ++ "p1") ("DETAILS#" ++ "p1") =
      some wC1Item := by
  have hh := c1_amended_category_migration wProdTable "p1" "u1" "2021"
    [("category", AttrVal.s "b")] wProdItem "a" "b" rfl rfl (by decide) rfl
    (by decide) (by decide)
  have hf := hh.2 wC1Item wC1Res.2 rfl
  exact ⟨hh.1, hf.1, hf.2.1, hf.2.2.1, hf.2.2.2⟩
